import Mathlib

/-!
Verification development for the hrdf-routing-engine repository.

The Rust sources are shallowly embedded: wall-clock instants become `Int`
(minutes since an epoch; a day has 1440 minutes, so `t.ediv 1440` is the
date and `t.emod 1440` the time of day), chrono `Duration`s become `Int`
(minutes, or seconds where the source works in seconds), fallible or
panicking code returns `Option`, and the external `hrdf_parser` collaborator
(timetable storage) is modelled as a structure of lookup functions that the
embedded source functions consume exactly the way the Rust code consumes
`DataStorage`.
-/

/-! # Temporal utilities (src/utils.rs, src/isochrone/utils.rs) -/

/-- `compute_remaining_threads` from src/utils.rs.  The Rust function panics
when `used_threads > num_threads && num_threads != 0`; the panic is modelled
as `none`. -/
def compute_remaining_threads (num_threads used_threads : Nat) : Option Nat :=
  if used_threads > num_threads ∧ num_threads ≠ 0 then
    none
  else
    let remaining_threads : Int := (num_threads : Int) - (used_threads : Int)
    if num_threads = 0 then some 0
    else if remaining_threads > 1 then some remaining_threads.toNat
    else some 1

/-- State of the `NaiveDateTimeRange` iterator from src/isochrone/utils.rs:
`from`, `to` and the increment, all in minutes. -/
structure NaiveDateTimeRange where
  fromAt : Int
  toAt : Int
  incr : Int
deriving DecidableEq, Repr

/-- One call of `NaiveDateTimeRange::next` (src/isochrone/utils.rs lines
186-196): returns the yielded element (if any) and the advanced state.
Note that the state advances to `from + incr` before the `< to` test, and
that the first yielded element is `from + incr`, not `from`. -/
def NaiveDateTimeRange.next (s : NaiveDateTimeRange) :
    Option Int × NaiveDateTimeRange :=
  if s.fromAt > s.toAt then (none, s)
  else
    let maybe_next := s.fromAt + s.incr
    let s' : NaiveDateTimeRange := { s with fromAt := maybe_next }
    (if maybe_next < s.toAt then some maybe_next else none, s')

/-- The list of elements produced by driving `NaiveDateTimeRange.next` until
it yields `none` (Rust `Iterator::collect` semantics), fuel-bounded. -/
def date_range_aux : Nat → Int → Int → Int → List Int
  | 0, _, _, _ => []
  | fuel + 1, fromAt, toAt, incr =>
    if fromAt > toAt then []
    else
      let maybe_next := fromAt + incr
      if maybe_next < toAt then
        maybe_next :: date_range_aux fuel maybe_next toAt incr
      else []

/-- `date_range(from, to, step)`: the collected sequence of the
`NaiveDateTimeRange` iterator.  The fuel `(to - from).toNat + 1` dominates the
number of iterations whenever the step is positive. -/
def date_range (fromAt toAt incr : Int) : List Int :=
  date_range_aux ((toAt - fromAt).toNat + 1) fromAt toAt incr

theorem date_range_aux_step_agrees_next (fuel : Nat) (s : NaiveDateTimeRange) :
    date_range_aux (fuel + 1) s.fromAt s.toAt s.incr =
      match s.next with
      | (none, _) => []
      | (some x, s') => if x ∈ [x] then x :: date_range_aux fuel s'.fromAt s'.toAt s'.incr else [] := by
  simp only [NaiveDateTimeRange.next, date_range_aux]
  by_cases h1 : s.fromAt > s.toAt
  · simp [h1]
  · simp only [h1, if_false, if_neg h1]
    by_cases h2 : s.fromAt + s.incr < s.toAt
    · simp [h2]
    · simp [h2]

theorem date_range_aux_get (toAt incr : Int) (hincr : 0 < incr) :
    ∀ (fuel : Nat) (fromAt : Int), (toAt - fromAt).toNat < fuel →
      ∀ k : Nat, (date_range_aux fuel fromAt toAt incr).get? k =
        if fromAt + (k + 1) * incr < toAt then some (fromAt + (k + 1) * incr)
        else none := by
  intro fuel
  induction fuel with
  | zero => intro fromAt hfuel; omega
  | succ n ih =>
    intro fromAt hfuel k
    simp only [date_range_aux]
    by_cases h1 : fromAt > toAt
    · have hge : ¬ fromAt + (k + 1) * incr < toAt := by nlinarith [Int.natCast_nonneg k]
      simp [h1, hge]
    · simp only [h1, if_false, if_neg h1]
      by_cases h2 : fromAt + incr < toAt
      · simp only [h2, if_true, if_pos h2]
        match k with
        | 0 => norm_num [h2]
        | k + 1 =>
          have hstep : (toAt - (fromAt + incr)).toNat < n := by omega
          have := ih (fromAt + incr) hstep k
          simp only [List.get?_cons_succ, this]
          have harith : fromAt + incr + (k + 1) * incr = fromAt + (k + 1 + 1) * incr := by ring
          rw [harith]
          norm_cast
      · have hge : ¬ fromAt + (k + 1) * incr < toAt := by nlinarith [Int.natCast_nonneg k]
        simp [h2, hge]

/-- Claim C7 (amended): for a positive step, `date_range(from, to, step)` is
the exclusive-exclusive arithmetic sequence: its k-th element (0-based) is
`from + (k+1)·step` whenever that instant is strictly below `to`, and the
sequence ends there; in particular the first element is `from + step`, not
`from` itself. -/
theorem date_range_characterization (fromAt toAt incr : Int) (hincr : 0 < incr) (k : Nat) :
    (date_range fromAt toAt incr).get? k =
      if fromAt + (k + 1) * incr < toAt then some (fromAt + (k + 1) * incr)
      else none := by
  exact date_range_aux_get toAt incr hincr _ fromAt (by omega) k

/-- Witness for `date_range_characterization` at `from = 0`, `to = 5`,
`step = 2`, `k = 0`: the first element is `0 + 1·2 = 2`. -/
theorem date_range_characterization_witness :
    (0 : Int) < 2 ∧ (date_range 0 5 2).get? 0 = some (0 + (0 + 1) * 2) := by
  refine ⟨by norm_num, ?_⟩
  rw [date_range_characterization 0 5 2 (by norm_num) 0]
  norm_num

/-- Counterexample to claim C7 as stated: for `from = 0`, `to = 2`,
`step = 1` the iterator yields `[1]`, so its first element is *not* `from`
(the claimed inclusive-exclusive sequence would start at 0). -/
theorem date_range_counterexample :
    date_range 0 2 1 = [1] ∧ (date_range 0 2 1).head? ≠ some 0 := by
  constructor <;> decide

/-- Claim C8 (amended): when the worker count W is positive and the outer
region size M does not exceed it, `compute_remaining_threads(W, M)` equals
`max 1 (W - M)`.  (For `W = 0` the function returns 0, and for `M > W > 0`
it panics, so the claimed identity does not hold for all inputs.) -/
theorem compute_remaining_threads_spec (w m : Nat) (hw : 0 < w) (hm : m ≤ w) :
    compute_remaining_threads w m = some (max 1 (w - m)) := by
  simp only [compute_remaining_threads]
  have h1 : ¬ (m > w ∧ w ≠ 0) := by omega
  simp only [h1, if_false, if_neg h1]
  have h2 : w ≠ 0 := by omega
  simp only [h2, if_false]
  by_cases h3 : (w : Int) - (m : Int) > 1
  · have : ((w : Int) - (m : Int)).toNat = w - m := by omega
    simp only [h3, if_pos h3, this, if_true]
    congr 1
    omega
  · simp only [h3, if_neg h3]
    have hle : w - m ≤ 1 := by omega
    simp [Nat.max_eq_left hle]

/-- Witness for `compute_remaining_threads_spec` at `W = 8`, `M = 2`:
six workers remain. -/
theorem compute_remaining_threads_spec_witness :
    0 < 8 ∧ 2 ≤ 8 ∧ compute_remaining_threads 8 2 = some (max 1 (8 - 2)) :=
  ⟨by decide, by decide, compute_remaining_threads_spec 8 2 (by decide) (by decide)⟩

/-- Counterexample to claim C8 as stated: at `W = 0, M = 5` the function
returns `some 0`, not `max 1 (W - M) = 1`; and at `W = 4, M = 5` (the claimed
"including M > W" case) it panics instead of returning a value. -/
theorem compute_remaining_threads_counterexample :
    compute_remaining_threads 0 5 = some 0 ∧
      compute_remaining_threads 0 5 ≠ some (max 1 (0 - 5)) ∧
      compute_remaining_threads 4 5 = none := by
  refine ⟨by decide, by decide, by decide⟩

/-! # HTTP service handler (src/service.rs) -/

/-- The query parameters of `GET /isochrones`
(`ComputeIsochronesRequest` in src/service.rs).  Latitude/longitude are
opaque pass-through values here. -/
structure ComputeIsochronesRequest where
  origin_point_latitude : Int
  origin_point_longitude : Int
  departure_date : Int
  departure_time : Int
  time_limit : Nat
  isochrone_interval : Nat
  display_mode : String
  find_optimal : Bool
deriving Repr, DecidableEq

/-- The successful payload of the handler: which isochrone computation was
invoked, with the request it was invoked on (the heavy geometry pipeline
itself is out of scope of this claim). -/
inductive IsochronesResponse where
  | optimalMap (req : ComputeIsochronesRequest)
  | simpleMap (req : ComputeIsochronesRequest)
deriving Repr, DecidableEq

/-- Rust's `%` on unsigned integers: panics (`none`) when the divisor is
zero. -/
def checked_mod (a b : Nat) : Option Nat :=
  if b = 0 then none else some (a % b)

/-- The `compute_isochrones` axum handler from src/service.rs (lines 74-126):
`some (Except.error 400)` is an HTTP 400, `some (Except.ok _)` the 200
response, and `none` a panic (no HTTP response at all). -/
def service_compute_isochrones (start_date end_date : Int)
    (params : ComputeIsochronesRequest) : Option (Except Nat IsochronesResponse) :=
  if params.departure_date < start_date ∨ params.departure_date > end_date then
    some (Except.error 400)
  else
    match checked_mod params.time_limit params.isochrone_interval with
    | none => none
    | some r =>
      if r ≠ 0 then some (Except.error 400)
      else if ¬ (["circles", "contour_line"].contains params.display_mode) then
        some (Except.error 400)
      else if params.find_optimal then some (Except.ok (.optimalMap params))
      else some (Except.ok (.simpleMap params))

/-- Claim C9: provided the interval is nonzero (see claim C10 for the zero
case), the handler returns 400 exactly when the departure date is outside
the timetable window, or the time limit is not divisible by the interval, or
the display mode is neither "circles" nor "contour_line"; otherwise it
returns the computed isochrone map (optimal-sweep or single, per
`find_optimal`). -/
theorem service_compute_isochrones_spec (start_date end_date : Int)
    (params : ComputeIsochronesRequest) (h : params.isochrone_interval ≠ 0) :
    service_compute_isochrones start_date end_date params =
      some (if params.departure_date < start_date ∨ params.departure_date > end_date ∨
              params.time_limit % params.isochrone_interval ≠ 0 ∨
              (params.display_mode ≠ "circles" ∧ params.display_mode ≠ "contour_line")
            then Except.error 400
            else Except.ok (if params.find_optimal then .optimalMap params
                            else .simpleMap params)) := by
  simp only [service_compute_isochrones, checked_mod, if_neg h]
  by_cases h1 : params.departure_date < start_date ∨ params.departure_date > end_date
  · rw [if_pos h1, if_pos (by tauto)]
  · rw [if_neg h1]
    have hras : (params.departure_date < start_date ∨ params.departure_date > end_date ∨
        params.time_limit % params.isochrone_interval ≠ 0 ∨
        (params.display_mode ≠ "circles" ∧ params.display_mode ≠ "contour_line")) ↔
          (params.time_limit % params.isochrone_interval ≠ 0 ∨
            (params.display_mode ≠ "circles" ∧ params.display_mode ≠ "contour_line")) := by
      tauto
    simp only [hras]
    by_cases h2 : params.time_limit % params.isochrone_interval ≠ 0
    · rw [if_pos h2, if_pos (Or.inl h2)]
    · rw [if_neg h2]
      have hras2 : (params.time_limit % params.isochrone_interval ≠ 0 ∨
          (params.display_mode ≠ "circles" ∧ params.display_mode ≠ "contour_line")) ↔
            (params.display_mode ≠ "circles" ∧ params.display_mode ≠ "contour_line") := by
        tauto
      simp only [hras2]
      by_cases h3 : (["circles", "contour_line"].contains params.display_mode) = true
      · have hor : params.display_mode = "circles" ∨ params.display_mode = "contour_line" := by
          simpa using h3
        have hdm : ¬ (params.display_mode ≠ "circles" ∧ params.display_mode ≠ "contour_line") := by
          tauto
        rw [if_neg (not_not_intro h3), if_neg hdm]
        by_cases h4 : params.find_optimal <;> simp [h4]
      · have hor : ¬ (params.display_mode = "circles" ∨ params.display_mode = "contour_line") := by
          simpa using h3
        have hdm : params.display_mode ≠ "circles" ∧ params.display_mode ≠ "contour_line" := by
          tauto
        rw [if_pos h3, if_pos hdm]

/-- A well-formed request used to witness the handler theorems. -/
def service_request_ok : ComputeIsochronesRequest :=
  { origin_point_latitude := 46, origin_point_longitude := 6,
    departure_date := 50, departure_time := 600,
    time_limit := 60, isochrone_interval := 10,
    display_mode := "circles", find_optimal := false }

/-- The same request with `isochrone_interval = 0`: the division-by-zero
input of claim C10. -/
def service_request_zero_interval : ComputeIsochronesRequest :=
  { service_request_ok with isochrone_interval := 0 }

/-- Witness for `service_compute_isochrones_spec`: a request inside the
timetable window with divisible interval and valid mode gets the computed
map. -/
theorem service_compute_isochrones_spec_witness :
    service_request_ok.isochrone_interval ≠ 0 ∧
      service_compute_isochrones 0 100 service_request_ok =
        some (if service_request_ok.departure_date < 0 ∨ service_request_ok.departure_date > 100 ∨
                service_request_ok.time_limit % service_request_ok.isochrone_interval ≠ 0 ∨
                (service_request_ok.display_mode ≠ "circles" ∧
                  service_request_ok.display_mode ≠ "contour_line")
              then Except.error 400
              else Except.ok (if service_request_ok.find_optimal
                              then .optimalMap service_request_ok
                              else .simpleMap service_request_ok)) :=
  ⟨by decide, service_compute_isochrones_spec 0 100 service_request_ok (by decide)⟩

/-- Claim C10: the divisibility guard divides by the caller-supplied interval
with no zero check, so the handler is total exactly under the precondition
`isochrone_interval ≠ 0`: with a nonzero interval it always produces an HTTP
response, and the concrete in-window request with `isochrone_interval = 0`
reaches the division-by-zero panic (`none`) instead of any response. -/
theorem service_compute_isochrones_division_by_zero :
    (∀ (s e : Int) (p : ComputeIsochronesRequest), p.isochrone_interval ≠ 0 →
        service_compute_isochrones s e p ≠ none) ∧
      service_compute_isochrones 0 100 service_request_zero_interval = none := by
  constructor
  · intro s e p h
    simp only [service_compute_isochrones, checked_mod, if_neg h]
    split_ifs <;> simp
  · rfl

/-- Witness for `service_compute_isochrones_division_by_zero`: its totality
half applied at the concrete well-formed request. -/
theorem service_compute_isochrones_division_by_zero_witness :
    service_compute_isochrones 0 100 service_request_ok ≠ none :=
  service_compute_isochrones_division_by_zero.1 0 100 service_request_ok (by decide)

/-! # Optimal-isochrone sweep (src/isochrone.rs, src/isochrone/models.rs) -/

/-- The part of `IsochroneMap` (src/isochrone/models.rs) that the sweep
reduction reads: the precomputed per-layer areas and the departure instant.
Areas are integers here (f64 in the source). -/
structure IsochroneMapModel where
  areas : List Int
  departure_at : Int
deriving DecidableEq, Repr

/-- One step of the fold in `IsochroneMap::compute_max_area`: the running
maximum starts at `f64::MIN` (modelled as `none`, below every actual area)
and is replaced whenever an area is strictly greater. -/
def fold_max_step (mx : Option Int) (area : Int) : Option Int :=
  match mx with
  | none => some area
  | some m => if area > m then some area else some m

/-- `IsochroneMap::compute_max_area` (src/isochrone/models.rs lines 72-78):
fold the areas with `f64::MIN` as the seed. -/
def IsochroneMapModel.compute_max_area (m : IsochroneMapModel) : Option Int :=
  m.areas.foldl fold_max_step none

/-- The f64 comparison `lhs.compute_max_area() > rhs.compute_max_area()`,
with `none` standing for the `f64::MIN` seed. -/
def area_gt : Option Int → Option Int → Bool
  | none, _ => false
  | some _, none => true
  | some a, some b => a > b

/-- One step of the `reduce(|lhs, rhs| if lhs.compute_max_area() >
rhs.compute_max_area() { lhs } else { rhs })` in
`compute_optimal_isochrones`: note that on a tie the *right* operand is
kept. -/
def optimal_reduce_step (acc : Option IsochroneMapModel) (rhs : IsochroneMapModel) :
    Option IsochroneMapModel :=
  match acc with
  | none => some rhs
  | some lhs =>
    if area_gt lhs.compute_max_area rhs.compute_max_area then some lhs else some rhs

/-- `compute_optimal_isochrones` (src/isochrone.rs lines 72-148): build the
one-minute departure sweep over `[departure_at - delta, departure_at +
delta]` with `NaiveDateTimeRange`, compute one `IsochroneMap` per minute
(the per-minute pipeline is abstracted as `computeMap`), and reduce by
maximal `compute_max_area`.  `none` models the `expect` panic on an empty
sweep. -/
def compute_optimal_isochrones (computeMap : Int → IsochroneMapModel)
    (departure_at delta_time : Int) : Option IsochroneMapModel :=
  ((date_range (departure_at - delta_time) (departure_at + delta_time) 1).map
      computeMap).foldl optimal_reduce_step none

theorem area_gt_irrefl (a : Option Int) : area_gt a a = false := by
  cases a with
  | none => rfl
  | some x => simp [area_gt]

theorem area_gt_asymm (a b : Option Int) (h : area_gt a b = true) :
    area_gt b a = false := by
  cases a <;> cases b <;> simp_all [area_gt] <;> omega

theorem area_gt_not_trans (a b c : Option Int) (hab : area_gt a b = false)
    (hbc : area_gt b c = false) : area_gt a c = false := by
  cases a <;> cases b <;> cases c <;> simp_all [area_gt] <;> omega

theorem optimal_reduce_fold (l : List IsochroneMapModel) (hl : l ≠ []) :
    ∃ m l1 l2, l.foldl optimal_reduce_step none = some m ∧ l = l1 ++ m :: l2 ∧
      (∀ x ∈ l, area_gt x.compute_max_area m.compute_max_area = false) ∧
      (∀ x ∈ l2, area_gt m.compute_max_area x.compute_max_area = true) := by
  induction l using List.reverseRecOn with
  | nil => exact absurd rfl hl
  | append_singleton l x ih =>
    rcases eq_or_ne l [] with hnil | hne
    · subst hnil
      refine ⟨x, [], [], rfl, rfl, ?_, ?_⟩
      · intro y hy
        rw [List.nil_append, List.mem_singleton] at hy
        subst hy
        exact area_gt_irrefl _
      · intro y hy
        exact absurd hy (List.not_mem_nil y)
    · obtain ⟨m, l1, l2, hfold, hsplit, hmax, hafter⟩ := ih hne
      rw [List.foldl_append, hfold]
      simp only [List.foldl_cons, List.foldl_nil, optimal_reduce_step]
      by_cases hgt : area_gt m.compute_max_area x.compute_max_area = true
      · refine ⟨m, l1, l2 ++ [x], by rw [if_pos hgt], ?_, ?_, ?_⟩
        · rw [hsplit]
          simp
        · intro y hy
          rcases List.mem_append.mp hy with hy | hy
          · exact hmax y hy
          · rw [List.mem_singleton] at hy
            subst hy
            exact area_gt_asymm _ _ hgt
        · intro y hy
          rcases List.mem_append.mp hy with hy | hy
          · exact hafter y hy
          · rw [List.mem_singleton] at hy
            subst hy
            exact hgt
      · have hgt' : area_gt m.compute_max_area x.compute_max_area = false := by
          simpa using hgt
        refine ⟨x, l, [], by rw [if_neg hgt], by simp, ?_, ?_⟩
        · intro y hy
          rcases List.mem_append.mp hy with hy | hy
          · exact area_gt_not_trans _ _ _ (hmax y hy) hgt'
          · rw [List.mem_singleton] at hy
            subst hy
            exact area_gt_irrefl _
        · intro y hy
          exact absurd hy (List.not_mem_nil y)

/-- Claim C4 (amended): for a positive window the sweep returns a per-minute
map whose `compute_max_area` is maximal over the window; when several
minutes tie on the maximal area, the reduction keeps its right operand, so
the *latest* minute in sweep order wins, not the lowest. -/
theorem compute_optimal_isochrones_picks_last_max
    (computeMap : Int → IsochroneMapModel) (departure_at delta_time : Int)
    (h : 0 < delta_time) :
    ∃ m l1 l2,
      compute_optimal_isochrones computeMap departure_at delta_time = some m ∧
      ((date_range (departure_at - delta_time) (departure_at + delta_time) 1).map
          computeMap) = l1 ++ m :: l2 ∧
      (∀ x ∈ l1 ++ m :: l2, area_gt x.compute_max_area m.compute_max_area = false) ∧
      (∀ x ∈ l2, area_gt m.compute_max_area x.compute_max_area = true) := by
  have hne : (date_range (departure_at - delta_time) (departure_at + delta_time) 1) ≠ [] := by
    intro hcon
    have h0 := date_range_characterization (departure_at - delta_time)
      (departure_at + delta_time) 1 (by norm_num) 0
    have hc : departure_at - delta_time + (((0 : ℕ) : ℤ) + 1) * 1 <
        departure_at + delta_time := by
      push_cast
      omega
    rw [if_pos hc, hcon] at h0
    simp at h0
  have hmapne : ((date_range (departure_at - delta_time) (departure_at + delta_time) 1).map
      computeMap) ≠ [] := by
    simpa using hne
  obtain ⟨m, l1, l2, hfold, hsplit, hmax, hafter⟩ := optimal_reduce_fold _ hmapne
  refine ⟨m, l1, l2, hfold, ?_, ?_, hafter⟩
  · exact hsplit
  · rw [← hsplit]
    exact hmax

/-- A per-minute pipeline whose every minute yields the same single-layer
area: the concrete tie instance of claim C4. -/
def constant_area_map (dep : Int) : IsochroneMapModel :=
  { areas := [5], departure_at := dep }

/-- Counterexample to claim C4 as stated: for the window `10 ± 2` the sweep
minutes are 9, 10, 11; every minute has the same (maximal) last-layer area,
but the sweep returns the map of minute 11 — the *highest* minute — not the
lowest minute 9 that the claim requires. -/
theorem compute_optimal_isochrones_tie_counterexample :
    compute_optimal_isochrones constant_area_map 10 2 = some (constant_area_map 11) ∧
      date_range (10 - 2) (10 + 2) 1 = [9, 10, 11] ∧
      (constant_area_map 9).compute_max_area = (constant_area_map 11).compute_max_area ∧
      (constant_area_map 11).departure_at ≠ (constant_area_map 9).departure_at := by
  refine ⟨by decide, by decide, by decide, by decide⟩

/-- Witness for `compute_optimal_isochrones_picks_last_max` at the constant
pipeline with `departure_at = 10`, `delta = 2`. -/
theorem compute_optimal_isochrones_picks_last_max_witness :
    ∃ m l1 l2,
      compute_optimal_isochrones constant_area_map 10 2 = some m ∧
      ((date_range (10 - 2) (10 + 2) 1).map constant_area_map) = l1 ++ m :: l2 ∧
      (∀ x ∈ l1 ++ m :: l2, area_gt x.compute_max_area m.compute_max_area = false) ∧
      (∀ x ∈ l2, area_gt m.compute_max_area x.compute_max_area = true) :=
  compute_optimal_isochrones_picks_last_max constant_area_map 10 2 (by decide)

/-! # Disk-union polygon synthesis (src/isochrone/circles.rs, src/isochrone.rs)

Durations are `Int` seconds, projected coordinates are `ℚ × ℚ`.  An n-gon
disk is recorded by the data `generate_lv95_circle_points` receives (centre,
radius, vertex count); its actual planar region — trigonometric vertex
placement, LV95→WGS84 conversion and point-in-polygon geometry — is
abstracted as an interpretation function `interp : DiskPolygon → Set (ℝ × ℝ)`
quantified in the theorems. -/

/-- Modelled from the spec: `src/isochrone/constants.rs` is declared but not
present under src/; the spec fixes the walking speed constant at 5 km/h. -/
def WALKING_SPEED_IN_KILOMETERS_PER_HOUR : ℚ := 5

/-- `time_to_distance` from src/isochrone/utils.rs: metres walked in
`duration` seconds at `speed` km/h (`speed / 3.6` m/s). -/
def time_to_distance (durationSeconds : Int) (speed_in_kilometers_per_hour : ℚ) : ℚ :=
  (durationSeconds : ℚ) * (speed_in_kilometers_per_hour / (36 / 10))

/-- The n-gon disk built by `generate_lv95_circle_points(e, n, distance,
num_points)` in src/isochrone/circles.rs: its centre, radius and vertex
count. -/
structure DiskPolygon where
  center : ℚ × ℚ
  radius : ℚ
  num_points : Nat
deriving DecidableEq, Repr

/-- The planar region of a multipolygon, given an interpretation of each
n-gon disk: boolean polygon union has the union of regions as its region,
so a multipolygon is carried as the list of disks composing it. -/
def multi_polygon_region (interp : DiskPolygon → Set (ℝ × ℝ))
    (mp : List DiskPolygon) : Set (ℝ × ℝ) :=
  ⋃ p ∈ mp, interp p

/-- `circles::get_polygons` (src/isochrone/circles.rs lines 14-53): keep the
cloud points with travel time at most the bound, turn each into an n-gon
disk of radius `time_to_distance(time_limit - duration)`, and fold them into
a union — skipping a disk the accumulated multipolygon already `contains`
(the geometric containment test is abstracted as `containsB`).  The trailing
parallel `reduce` unions chunk results and adds no region. -/
def get_polygons (containsB : List DiskPolygon → DiskPolygon → Bool)
    (data : List ((ℚ × ℚ) × Int)) (time_limit : Int) (num_circle_points : Nat) :
    List DiskPolygon :=
  ((data.filter (fun pd => pd.2 ≤ time_limit)).map (fun pd =>
      { center := pd.1,
        radius := time_to_distance (time_limit - pd.2) WALKING_SPEED_IN_KILOMETERS_PER_HOUR,
        num_points := num_circle_points : DiskPolygon })).foldl
    (fun poly p => if !(containsB poly p) then poly ++ [p] else poly) []

/-- Soundness of the containment shortcut: whenever `containsB` reports that
the accumulated multipolygon contains a disk, that disk's region really is
inside the multipolygon's region (what geo's `contains` guarantees). -/
def ContainsSound (interp : DiskPolygon → Set (ℝ × ℝ))
    (containsB : List DiskPolygon → DiskPolygon → Bool) : Prop :=
  ∀ mp p, containsB mp p = true → interp p ⊆ multi_polygon_region interp mp


theorem mem_multi_polygon_region (interp : DiskPolygon → Set (ℝ × ℝ))
    (mp : List DiskPolygon) (x : ℝ × ℝ) :
    x ∈ multi_polygon_region interp mp ↔ ∃ p ∈ mp, x ∈ interp p := by
  simp [multi_polygon_region]

theorem get_polygons_fold_region (interp : DiskPolygon → Set (ℝ × ℝ))
    (containsB : List DiskPolygon → DiskPolygon → Bool)
    (hcont : ContainsSound interp containsB) :
    ∀ (ds acc : List DiskPolygon),
      multi_polygon_region interp
          (ds.foldl (fun poly p => if !(containsB poly p) then poly ++ [p] else poly) acc) =
        multi_polygon_region interp acc ∪ multi_polygon_region interp ds := by
  intro ds
  induction ds with
  | nil =>
    intro acc
    have hempty : multi_polygon_region interp [] = ∅ := by
      simp [multi_polygon_region]
    simp [hempty]
  | cons p ds ih =>
    intro acc
    simp only [List.foldl_cons]
    rw [ih]
    by_cases hc : containsB acc p = true
    · have hsub : interp p ⊆ multi_polygon_region interp acc := hcont acc p hc
      rw [if_neg (by simp [hc])]
      ext x
      simp only [Set.mem_union, mem_multi_polygon_region, List.mem_cons]
      constructor
      · rintro (hx | ⟨q, hq, hxq⟩)
        · exact Or.inl hx
        · exact Or.inr ⟨q, Or.inr hq, hxq⟩
      · rintro (hx | ⟨q, hq, hxq⟩)
        · exact Or.inl hx
        · rcases hq with rfl | hq
          · exact Or.inl ((mem_multi_polygon_region interp acc x).mp (hsub hxq))
          · exact Or.inr ⟨q, hq, hxq⟩
    · have hc' : containsB acc p = false := by simpa using hc
      rw [if_pos (by simp [hc'])]
      ext x
      simp only [Set.mem_union, mem_multi_polygon_region, List.mem_cons, List.mem_append,
        List.not_mem_nil, or_false]
      constructor
      · rintro (⟨q, hq | rfl, hxq⟩ | ⟨q, hq, hxq⟩)
        · exact Or.inl ⟨q, hq, hxq⟩
        · exact Or.inr ⟨q, Or.inl rfl, hxq⟩
        · exact Or.inr ⟨q, Or.inr hq, hxq⟩
      · rintro (⟨q, hq, hxq⟩ | ⟨q, rfl | hq, hxq⟩)
        · exact Or.inl ⟨q, Or.inl hq, hxq⟩
        · exact Or.inl ⟨q, Or.inr rfl, hxq⟩
        · exact Or.inr ⟨q, hq, hxq⟩

/-- The region of the disks-mode multipolygon is exactly the union of the
n-gon disks of the time-filtered cloud points. -/
theorem get_polygons_region_eq (interp : DiskPolygon → Set (ℝ × ℝ))
    (containsB : List DiskPolygon → DiskPolygon → Bool)
    (hcont : ContainsSound interp containsB)
    (data : List ((ℚ × ℚ) × Int)) (time_limit : Int) (num_circle_points : Nat) :
    multi_polygon_region interp (get_polygons containsB data time_limit num_circle_points) =
      ⋃ pd ∈ data.filter (fun pd => pd.2 ≤ time_limit),
        interp { center := pd.1,
                 radius := time_to_distance (time_limit - pd.2)
                   WALKING_SPEED_IN_KILOMETERS_PER_HOUR,
                 num_points := num_circle_points } := by
  rw [get_polygons, get_polygons_fold_region interp containsB hcont]
  have hempty : multi_polygon_region interp [] = ∅ := by
    simp [multi_polygon_region]
  rw [hempty, Set.empty_union]
  ext x
  rw [mem_multi_polygon_region]
  constructor
  · rintro ⟨q, hq, hxq⟩
    rw [List.mem_map] at hq
    obtain ⟨pd, hpd, rfl⟩ := hq
    simp only [Set.mem_iUnion]
    exact ⟨pd, hpd, hxq⟩
  · intro hx
    simp only [Set.mem_iUnion] at hx
    obtain ⟨pd, hpd, hxpd⟩ := hx
    exact ⟨_, List.mem_map_of_mem _ hpd, hxpd⟩

/-- Claim C5: for every cloud and every time bound, the disks-mode polygon
region equals the union, over exactly the cloud points with travel time at
most the bound, of the n-gon disk centred at the point with radius
`walk_distance(bound − t(p))`; and a cloud point with travel time strictly
greater than the bound contributes no polygon interior — restricting the
cloud to the in-time points leaves the region unchanged. -/
theorem get_polygons_region_spec (interp : DiskPolygon → Set (ℝ × ℝ))
    (containsB : List DiskPolygon → DiskPolygon → Bool)
    (hcont : ContainsSound interp containsB)
    (data : List ((ℚ × ℚ) × Int)) (time_limit : Int) (num_circle_points : Nat) :
    multi_polygon_region interp (get_polygons containsB data time_limit num_circle_points) =
      (⋃ pd ∈ data.filter (fun pd => pd.2 ≤ time_limit),
        interp { center := pd.1,
                 radius := time_to_distance (time_limit - pd.2)
                   WALKING_SPEED_IN_KILOMETERS_PER_HOUR,
                 num_points := num_circle_points }) ∧
      multi_polygon_region interp (get_polygons containsB data time_limit num_circle_points) =
        multi_polygon_region interp
          (get_polygons containsB (data.filter (fun pd => pd.2 ≤ time_limit))
            time_limit num_circle_points) := by
  have h1 := get_polygons_region_eq interp containsB hcont data time_limit num_circle_points
  have h2 := get_polygons_region_eq interp containsB hcont
    (data.filter (fun pd => pd.2 ≤ time_limit)) time_limit num_circle_points
  have hff : (data.filter (fun pd => pd.2 ≤ time_limit)).filter
      (fun pd => pd.2 ≤ time_limit) = data.filter (fun pd => pd.2 ≤ time_limit) := by
    apply List.filter_eq_self.mpr
    intro a ha
    exact (List.mem_filter.mp ha).2
  refine ⟨h1, ?_⟩
  rw [h1, h2, hff]

/-- A trivial disk interpretation (everything is the whole plane), used to
witness the geometric theorems. -/
def disk_interp_univ : DiskPolygon → Set (ℝ × ℝ) := fun _ => Set.univ

/-- A containment test that never short-circuits (soundness is vacuous). -/
def contains_never : List DiskPolygon → DiskPolygon → Bool := fun _ _ => false

theorem contains_never_sound (interp : DiskPolygon → Set (ℝ × ℝ)) :
    ContainsSound interp contains_never := by
  intro mp p h
  exact absurd h (by simp [contains_never])

/-- Witness for `get_polygons_region_spec`: a two-point cloud of which only
the first point is within the 30-minute bound. -/
theorem get_polygons_region_spec_witness :
    multi_polygon_region disk_interp_univ
        (get_polygons contains_never [((0, 0), 600), ((1, 1), 5000)] 1800 6) =
      (⋃ pd ∈ ([((0, 0), 600), ((1, 1), 5000)] :
            List ((ℚ × ℚ) × Int)).filter (fun pd => pd.2 ≤ 1800),
        disk_interp_univ
          { center := pd.1,
            radius := time_to_distance (1800 - pd.2) WALKING_SPEED_IN_KILOMETERS_PER_HOUR,
            num_points := 6 }) ∧
      multi_polygon_region disk_interp_univ
          (get_polygons contains_never [((0, 0), 600), ((1, 1), 5000)] 1800 6) =
        multi_polygon_region disk_interp_univ
          (get_polygons contains_never
            (([((0, 0), 600), ((1, 1), 5000)] :
              List ((ℚ × ℚ) × Int)).filter (fun pd => pd.2 ≤ 1800)) 1800 6) :=
  get_polygons_region_spec disk_interp_univ contains_never
    (contains_never_sound disk_interp_univ) [((0, 0), 600), ((1, 1), 5000)] 1800 6

theorem time_to_distance_nonneg (d : Int) (hd : 0 ≤ d) :
    0 ≤ time_to_distance d WALKING_SPEED_IN_KILOMETERS_PER_HOUR := by
  unfold time_to_distance WALKING_SPEED_IN_KILOMETERS_PER_HOUR
  have : (0 : ℚ) ≤ (d : ℚ) := by exact_mod_cast hd
  positivity

theorem time_to_distance_mono (d d' : Int) (h : d ≤ d') :
    time_to_distance d WALKING_SPEED_IN_KILOMETERS_PER_HOUR ≤
      time_to_distance d' WALKING_SPEED_IN_KILOMETERS_PER_HOUR := by
  unfold time_to_distance WALKING_SPEED_IN_KILOMETERS_PER_HOUR
  have hd : (d : ℚ) ≤ (d' : ℚ) := by exact_mod_cast h
  have hs : (0 : ℚ) ≤ 5 / (36 / 10) := by norm_num
  exact mul_le_mul_of_nonneg_right hd hs

/-- The region of the k-th layer (0-based) of `compute_isochrones`
(src/isochrone.rs lines 453-488) in disks mode: the layer's bound is
`interval · (k+1)` (in seconds here), its multipolygon is synthesized from
the full cloud by `circles::get_polygons` with 6-point circles, and the
result is clipped by set-difference against the excluded regions. -/
def compute_isochrones_layer (interp : DiskPolygon → Set (ℝ × ℝ))
    (containsB : List DiskPolygon → DiskPolygon → Bool) (excluded : Set (ℝ × ℝ))
    (data : List ((ℚ × ℚ) × Int)) (isochrone_interval : Int) (k : Nat) : Set (ℝ × ℝ) :=
  multi_polygon_region interp
      (get_polygons containsB data (isochrone_interval * ((k : Int) + 1)) 6) \ excluded

/-- The geometric fact the n-gon interpretation must satisfy: fixing the
centre and the vertex count, a larger radius gives a superset region (true
of regular n-gons scaled about their centre). -/
def InterpMonotone (interp : DiskPolygon → Set (ℝ × ℝ)) : Prop :=
  ∀ (c : ℚ × ℚ) (n : Nat) (r r' : ℚ), 0 ≤ r → r ≤ r' →
    interp { center := c, radius := r, num_points := n } ⊆
      interp { center := c, radius := r', num_points := n }

/-- Claim C6: with layers synthesized from the full cloud at thresholds
I, 2I, … and clipped by the same excluded regions, the stack is
monotonically nested: each layer's region is contained in the next one's,
and its area (planar measure) is at most the next one's. -/
theorem compute_isochrones_layers_nested (interp : DiskPolygon → Set (ℝ × ℝ))
    (containsB : List DiskPolygon → DiskPolygon → Bool) (excluded : Set (ℝ × ℝ))
    (data : List ((ℚ × ℚ) × Int)) (isochrone_interval : Int)
    (hcont : ContainsSound interp containsB) (hmono : InterpMonotone interp)
    (hI : 0 ≤ isochrone_interval) (k : Nat) :
    compute_isochrones_layer interp containsB excluded data isochrone_interval k ⊆
        compute_isochrones_layer interp containsB excluded data isochrone_interval (k + 1) ∧
      MeasureTheory.volume
          (compute_isochrones_layer interp containsB excluded data isochrone_interval k) ≤
        MeasureTheory.volume
          (compute_isochrones_layer interp containsB excluded data isochrone_interval (k + 1)) := by
  have htl : isochrone_interval * ((k : Int) + 1) ≤
      isochrone_interval * (((k : Nat) + 1 : Nat) : Int) + isochrone_interval := by
    push_cast
    nlinarith [Int.natCast_nonneg k]
  have hsub : compute_isochrones_layer interp containsB excluded data isochrone_interval k ⊆
      compute_isochrones_layer interp containsB excluded data isochrone_interval (k + 1) := by
    unfold compute_isochrones_layer
    apply Set.diff_subset_diff_left
    rw [get_polygons_region_eq interp containsB hcont data _ 6,
      get_polygons_region_eq interp containsB hcont data _ 6]
    apply Set.iUnion₂_subset
    intro pd hpd
    have hpd' := List.mem_filter.mp hpd
    have hle : pd.2 ≤ isochrone_interval * ((k : Int) + 1) := by
      have := hpd'.2
      simpa using this
    have hlt2 : isochrone_interval * ((k : Int) + 1) ≤
        isochrone_interval * ((((k + 1) : Nat) : Int) + 1) := by
      push_cast
      nlinarith [Int.natCast_nonneg k]
    have hmem2 : pd ∈ data.filter
        (fun pd => pd.2 ≤ isochrone_interval * ((((k + 1) : Nat) : Int) + 1)) := by
      apply List.mem_filter.mpr
      refine ⟨hpd'.1, ?_⟩
      simp only [decide_eq_true_eq]
      omega
    have hr0 : 0 ≤ time_to_distance (isochrone_interval * ((k : Int) + 1) - pd.2)
        WALKING_SPEED_IN_KILOMETERS_PER_HOUR :=
      time_to_distance_nonneg _ (by omega)
    have hrmono : time_to_distance (isochrone_interval * ((k : Int) + 1) - pd.2)
          WALKING_SPEED_IN_KILOMETERS_PER_HOUR ≤
        time_to_distance (isochrone_interval * ((((k + 1) : Nat) : Int) + 1) - pd.2)
          WALKING_SPEED_IN_KILOMETERS_PER_HOUR :=
      time_to_distance_mono _ _ (by omega)
    refine Set.Subset.trans (hmono pd.1 6 _ _ hr0 hrmono) ?_
    intro x hx
    simp only [Set.mem_iUnion]
    exact ⟨pd, hmem2, hx⟩
  exact ⟨hsub, MeasureTheory.measure_mono hsub⟩

theorem disk_interp_univ_monotone : InterpMonotone disk_interp_univ := by
  intro c n r r' h1 h2
  exact Set.Subset.rfl

/-- Witness for `compute_isochrones_layers_nested`: the trivial
interpretation, an empty excluded region, a one-point cloud, a 10-minute
interval and the first layer pair. -/
theorem compute_isochrones_layers_nested_witness :
    compute_isochrones_layer disk_interp_univ contains_never ∅ [((0, 0), 0)] 600 0 ⊆
        compute_isochrones_layer disk_interp_univ contains_never ∅ [((0, 0), 0)] 600 1 ∧
      MeasureTheory.volume
          (compute_isochrones_layer disk_interp_univ contains_never ∅ [((0, 0), 0)] 600 0) ≤
        MeasureTheory.volume
          (compute_isochrones_layer disk_interp_univ contains_never ∅ [((0, 0), 0)] 600 1) :=
  compute_isochrones_layers_nested disk_interp_univ contains_never ∅ [((0, 0), 0)] 600
    (contains_never_sound disk_interp_univ) disk_interp_univ_monotone (by norm_num) 0

/-! # Timetable storage model and exchange times (src/routing/connections.rs)

The `hrdf_parser::DataStorage` collaborator is an external crate: its lookup
tables become functions, with id-to-record resolution fused into the maps
(the Rust code's `find(id).unwrap_or_else(panic)` on ids obtained from those
maps).  A `hrdf_parser::Journey`'s methods become record fields.  Instants
are minutes since an epoch (`t.ediv 1440` is the date). -/

/-- The face of a `hrdf_parser::Journey` that the routing code consumes. -/
structure Journey where
  id : Int
  legacy_id : Int
  administration : String
  /-- `journey.transport_type(data_storage).designation()`. -/
  designation : String
  /-- `journey.is_last_stop(stop_id, b)`. -/
  is_last_stop : Int → Bool → Bool
  /-- `journey.departure_at_of(stop_id, date)`. -/
  departure_at_of : Int → Int → Int
  /-- `journey.hash_route(departure_stop_id)` (`None` when the stop is not on
  the journey). -/
  hash_route : Int → Option Int
  /-- The stop ids of `journey.route_section(departure_stop_id,
  arrival_stop_id)` (each route entry's `stop_id()`). -/
  route_section_stops : Int → Int → List Int
  /-- `journey.arrival_at_of_with_origin(stop_id, date, false, origin)`;
  `none` is the `Err` case. -/
  arrival_at_of_with_origin : Int → Int → Int → Option Int
  /-- `journey.count_stops(departure_stop_id, arrival_stop_id)`. -/
  count_stops : Int → Int → Nat

/-- A resolved `ExchangeTimeJourney` record: its optional validity bit field
(already resolved to its bit list) and its duration in minutes. -/
structure ExchangeTimeJourney where
  bit_field_bits : Option (List Int)
  duration : Int
deriving DecidableEq, Repr

/-- The face of a `hrdf_parser::Stop` that the routing code consumes. -/
structure Stop where
  exchange_time : Option (Int × Int)
  can_be_used_as_exchange_point : Bool
deriving DecidableEq, Repr

/-- A `hrdf_parser::StopConnection` (foot transfer): the two stop ids and
the walking duration in minutes. -/
structure StopConnection where
  stop_id_1 : Int
  stop_id_2 : Int
  duration : Int
deriving DecidableEq, Repr

/-- The lookup tables of `hrdf_parser::DataStorage` that
src/routing/connections.rs, src/routing/core.rs and
src/routing/exploration.rs consume. -/
structure DataStorage where
  stops : Int → Option Stop
  journeys : Int → Option Journey
  stop_connections_by_stop_id : Int → Option (List StopConnection)
  bit_fields_by_stop_id : Int → Option (List Int)
  bit_fields_by_day : Int → List Int
  journeys_by_stop_id_and_bit_field_id : Int → Int → List Int
  exchange_times_journey_map :
    Int → (Int × String) → (Int × String) → Option (List ExchangeTimeJourney)
  exchange_times_administration_map : Option Int → String → String → Option Int
  default_exchange_time : Int × Int
  through_service_bit_field : (Int × String) → (Int × String) → Int → Option Int
  timetable_end_date : Int

/-- `add_minutes_to_date_time` from src/utils.rs. -/
def add_minutes_to_date_time (date_time minutes : Int) : Int :=
  date_time + minutes

/-- `count_days_between_two_dates` from src/utils.rs:
`usize::try_from((date_2 - date_1).num_days()).unwrap() + 1`; the `unwrap`
panics (`none`) when the difference is negative. -/
def count_days_between_two_dates (date_1 date_2 : Int) : Option Nat :=
  if date_2 - date_1 < 0 then none else some ((date_2 - date_1).toNat + 1)

/-- The scan over the `ExchangeTimeJourney` entries in
`exchange_time_journey_pair` (src/routing/connections.rs lines 311-329):
the first entry with no bit field, or whose bit field has bit 1 at the date
index, decides; `none` models the out-of-bounds bit access panic. -/
def exchange_time_journey_scan (index : Nat) :
    List ExchangeTimeJourney → Option (Option Int)
  | [] => some none
  | et :: rest =>
    match et.bit_field_bits with
    | some bits =>
      match bits.get? index with
      | none => none
      | some b =>
        if b = 1 then some (some et.duration) else exchange_time_journey_scan index rest
    | none => some (some et.duration)

/-- `exchange_time_journey_pair` (src/routing/connections.rs lines 289-332).
The outer `Option` models panics; the inner one is the Rust `Option<i16>`. -/
def exchange_time_journey_pair (ds : DataStorage) (stop_id : Int)
    (journey_legacy_id_1 : Int) (administration_1 : String)
    (journey_legacy_id_2 : Int) (administration_2 : String)
    (departure_at : Int) : Option (Option Int) :=
  match ds.exchange_times_journey_map stop_id (journey_legacy_id_1, administration_1)
      (journey_legacy_id_2, administration_2) with
  | none => some none
  | some exchange_times =>
    match count_days_between_two_dates (departure_at.ediv 1440) ds.timetable_end_date with
    | none => none
    | some cnt => exchange_time_journey_scan (2 + cnt - 1) exchange_times

/-- `exchange_time_at_stop` (src/routing/connections.rs lines 334-344): the
IC-to-IC column of the stop's pair, otherwise the general column. -/
def exchange_time_at_stop (exchange_time : Int × Int)
    (transport_designation_1 transport_designation_2 : String) : Int :=
  if transport_designation_1 = "IC" ∧ transport_designation_2 = "IC" then
    exchange_time.1
  else exchange_time.2

/-- `get_exchange_time` (src/routing/connections.rs lines 209-287): resolve
the minimum connection minutes through the fallback cascade.  `none` models
the stop/journey `find` panics. -/
def get_exchange_time (ds : DataStorage) (stop_id journey_id_1 journey_id_2 : Int)
    (departure_at : Int) : Option Int := do
  let stop ← ds.stops stop_id
  let journey_1 ← ds.journeys journey_id_1
  let journey_2 ← ds.journeys journey_id_2
  let pair ← exchange_time_journey_pair ds stop_id journey_1.legacy_id
    journey_1.administration journey_2.legacy_id journey_2.administration departure_at
  match pair with
  | some exchange_time => pure exchange_time
  | none =>
    match ds.exchange_times_administration_map (some stop_id) journey_1.administration
        journey_2.administration with
    | some d => pure d
    | none =>
      match stop.exchange_time with
      | some et => pure (exchange_time_at_stop et journey_1.designation journey_2.designation)
      | none =>
        match ds.exchange_times_administration_map none journey_1.administration
            journey_2.administration with
        | some d => pure d
        | none =>
          pure (exchange_time_at_stop ds.default_exchange_time journey_1.designation
            journey_2.designation)

/-- `has_through_service` (src/routing/connections.rs lines 187-207). -/
def has_through_service (ds : DataStorage) (date : Int)
    (journey_1_legacy_id : Int) (journey_1_admin : String)
    (journey_2_legacy_id : Int) (journey_2_admin : String) (stop_id : Int) : Bool :=
  match ds.through_service_bit_field (journey_1_legacy_id, journey_1_admin)
      (journey_2_legacy_id, journey_2_admin) stop_id with
  | none => false
  | some bf => (ds.bit_fields_by_day date).contains bf

/-- The boarding filter of `next_departures` (src/routing/connections.rs
lines 120-153): a journey can be boarded after `previous_journey_id` when
the pair is a through service on the date, or when the departure instant
plus the resolved exchange time is no later than the journey's departure.
`none` models the `find`/`get_exchange_time` panics. -/
def boarding_allowed (ds : DataStorage) (departure_stop_id departure_at : Int)
    (previous_journey_id : Option Int) (journey : Journey)
    (journey_departure_at : Int) : Option Bool :=
  match previous_journey_id with
  | none => some true
  | some id => do
    let previous_journey ← ds.journeys id
    if !(has_through_service ds (departure_at.ediv 1440) previous_journey.legacy_id
        previous_journey.administration journey.legacy_id journey.administration
        departure_stop_id) then
      let exchange_time ← get_exchange_time ds departure_stop_id id journey.id
        journey_departure_at
      pure (decide (add_minutes_to_date_time departure_at exchange_time ≤ journey_departure_at))
    else
      pure true

/-- Claim C3: the minimum connection time is resolved by trying the
fallbacks in exactly the order trip-pair, stop-administration-pair, stop
default, global administration-pair, global default (clauses 1-5); and
whenever the two trips share a through-service record valid on the date,
boarding is allowed regardless of any exchange time (clause 6). -/
theorem get_exchange_time_fallback_order (ds : DataStorage)
    (stop_id journey_id_1 journey_id_2 departure_at : Int)
    (stop : Stop) (journey_1 journey_2 : Journey)
    (hstop : ds.stops stop_id = some stop)
    (hj1 : ds.journeys journey_id_1 = some journey_1)
    (hj2 : ds.journeys journey_id_2 = some journey_2) :
    (∀ d, exchange_time_journey_pair ds stop_id journey_1.legacy_id journey_1.administration
        journey_2.legacy_id journey_2.administration departure_at = some (some d) →
      get_exchange_time ds stop_id journey_id_1 journey_id_2 departure_at = some d) ∧
    (∀ d, exchange_time_journey_pair ds stop_id journey_1.legacy_id journey_1.administration
        journey_2.legacy_id journey_2.administration departure_at = some none →
      ds.exchange_times_administration_map (some stop_id) journey_1.administration
        journey_2.administration = some d →
      get_exchange_time ds stop_id journey_id_1 journey_id_2 departure_at = some d) ∧
    (∀ et, exchange_time_journey_pair ds stop_id journey_1.legacy_id journey_1.administration
        journey_2.legacy_id journey_2.administration departure_at = some none →
      ds.exchange_times_administration_map (some stop_id) journey_1.administration
        journey_2.administration = none →
      stop.exchange_time = some et →
      get_exchange_time ds stop_id journey_id_1 journey_id_2 departure_at =
        some (exchange_time_at_stop et journey_1.designation journey_2.designation)) ∧
    (∀ d, exchange_time_journey_pair ds stop_id journey_1.legacy_id journey_1.administration
        journey_2.legacy_id journey_2.administration departure_at = some none →
      ds.exchange_times_administration_map (some stop_id) journey_1.administration
        journey_2.administration = none →
      stop.exchange_time = none →
      ds.exchange_times_administration_map none journey_1.administration
        journey_2.administration = some d →
      get_exchange_time ds stop_id journey_id_1 journey_id_2 departure_at = some d) ∧
    (exchange_time_journey_pair ds stop_id journey_1.legacy_id journey_1.administration
        journey_2.legacy_id journey_2.administration departure_at = some none →
      ds.exchange_times_administration_map (some stop_id) journey_1.administration
        journey_2.administration = none →
      stop.exchange_time = none →
      ds.exchange_times_administration_map none journey_1.administration
        journey_2.administration = none →
      get_exchange_time ds stop_id journey_id_1 journey_id_2 departure_at =
        some (exchange_time_at_stop ds.default_exchange_time journey_1.designation
          journey_2.designation)) ∧
    (∀ (previous_id : Int) (previous_journey : Journey) (journey_departure_at : Int),
      ds.journeys previous_id = some previous_journey →
      has_through_service ds (departure_at.ediv 1440) previous_journey.legacy_id
        previous_journey.administration journey_2.legacy_id journey_2.administration
        stop_id = true →
      boarding_allowed ds stop_id departure_at (some previous_id) journey_2
        journey_departure_at = some true) := by
  refine ⟨?_, ?_, ?_, ?_, ?_, ?_⟩
  · intro d hpair
    simp [get_exchange_time, hstop, hj1, hj2, hpair, Option.bind]
  · intro d hpair hadm
    simp [get_exchange_time, hstop, hj1, hj2, hpair, hadm, Option.bind]
  · intro et hpair hadm hstopet
    simp [get_exchange_time, hstop, hj1, hj2, hpair, hadm, hstopet, Option.bind]
  · intro d hpair hadm hstopet hglob
    simp [get_exchange_time, hstop, hj1, hj2, hpair, hadm, hstopet, hglob, Option.bind]
  · intro hpair hadm hstopet hglob
    simp [get_exchange_time, hstop, hj1, hj2, hpair, hadm, hstopet, hglob, Option.bind]
  · intro previous_id previous_journey journey_departure_at hprev hts
    simp [boarding_allowed, hprev, hts, Option.bind]

/-- A concrete IC journey for the exchange-time witness. -/
def journey_ic : Journey :=
  { id := 1, legacy_id := 100, administration := "SBB", designation := "IC",
    is_last_stop := fun _ _ => false, departure_at_of := fun _ _ => 0,
    hash_route := fun _ => none, route_section_stops := fun _ _ => [],
    arrival_at_of_with_origin := fun _ _ _ => none, count_stops := fun _ _ => 0 }

/-- A concrete regional journey for the exchange-time witness. -/
def journey_regional : Journey :=
  { id := 2, legacy_id := 200, administration := "SBB", designation := "R",
    is_last_stop := fun _ _ => false, departure_at_of := fun _ _ => 0,
    hash_route := fun _ => none, route_section_stops := fun _ _ => [],
    arrival_at_of_with_origin := fun _ _ _ => none, count_stops := fun _ _ => 0 }

/-- A stop with a per-stop exchange-time pair, for the witness. -/
def stop_with_exchange : Stop :=
  { exchange_time := some (4, 7), can_be_used_as_exchange_point := true }

/-- A concrete timetable storage with no trip-pair and no administration
exchange-time entries, one stop with a stop default, and one through-service
record valid on every date. -/
def exchange_storage : DataStorage :=
  { stops := fun s => if s = 8000 then some stop_with_exchange else none,
    journeys := fun j =>
      if j = 1 then some journey_ic else if j = 2 then some journey_regional else none,
    stop_connections_by_stop_id := fun _ => none,
    bit_fields_by_stop_id := fun _ => none,
    bit_fields_by_day := fun _ => [77],
    journeys_by_stop_id_and_bit_field_id := fun _ _ => [],
    exchange_times_journey_map := fun _ _ _ => none,
    exchange_times_administration_map := fun _ _ _ => none,
    default_exchange_time := (2, 5),
    through_service_bit_field := fun p1 p2 s =>
      if p1 = (100, "SBB") ∧ p2 = (200, "SBB") ∧ s = 8000 then some 77 else none,
    timetable_end_date := 400 }

/-- Witness for `get_exchange_time_fallback_order`: on `exchange_storage`
the cascade lands on the stop default (clause 3), and the through-service
pair is boardable regardless of exchange time (clause 6). -/
theorem get_exchange_time_fallback_order_witness :
    get_exchange_time exchange_storage 8000 1 2 600 =
      some (exchange_time_at_stop (4, 7) "IC" "R") ∧
    boarding_allowed exchange_storage 8000 600 (some 1) journey_regional 640 = some true :=
  ⟨(get_exchange_time_fallback_order exchange_storage 8000 1 2 600 stop_with_exchange
      journey_ic journey_regional rfl rfl rfl).2.2.1 (4, 7) rfl rfl rfl,
   (get_exchange_time_fallback_order exchange_storage 8000 1 2 600 stop_with_exchange
      journey_ic journey_regional rfl rfl rfl).2.2.2.2.2 1 journey_ic 640 rfl rfl⟩

/-! # RAPTOR-style route scan (src/routing.rs)

`plan_journey`'s per-round route scan (lines 84-182) over the router-native
indexed arrays.  `NaiveTime` values are minutes of the day (`Int`), so the
comparisons below are time-of-day comparisons exactly as in the source.
Hash maps become association lists; `none` anywhere models a Rust panic
(index out of bounds, `unwrap`, or usize underflow — the source itself
carries a `WARNING: It will probably crash around 0` on the backward trip
search). -/

/-- Association-list lookup, modelling `HashMap::get`. -/
def assoc_lookup {κ α : Type} [DecidableEq κ] (m : List (κ × α)) (k : κ) : Option α :=
  (m.find? (fun kv => kv.1 == k)).map (·.2)

/-- Association-list insert, modelling `HashMap::insert` (replaces). -/
def assoc_insert {κ α : Type} [DecidableEq κ] (m : List (κ × α)) (k : κ) (v : α) :
    List (κ × α) :=
  (k, v) :: m.eraseP (fun kv => kv.1 == k)

/-- `RrStopTime` (src/routing/models.rs): optional arrival/departure times
of day. -/
structure RrStopTime where
  arrival_time : Option Int
  departure_time : Option Int
deriving DecidableEq, Repr

/-- `RrRoute` (src/routing/models.rs): index block of a route in the flat
stop-time and route-stop arrays. -/
structure RrRoute where
  stop_time_first_index : Nat
  stop_time_count : Nat
  stop_first_index : Nat
  stop_count : Nat
deriving DecidableEq, Repr

/-- The mutable state one route scan of `plan_journey` threads: the
round-k labels, the global earliest-arrival map, the marked set, the
predecessor map (`path[k-1]` in the source), and the trip currently held. -/
structure ScanState where
  labels_k : List (Nat × Int)
  earliest_arrival_times : List (Nat × Int)
  marked_stops : List Nat
  path_k : List (Nat × (Nat × Nat))
  current_trip_index : Option Nat
  current_trip_boarded_at : Nat
deriving DecidableEq, Repr

/-- Lines 92-125: with a trip held, read its arrival at this position; a
numerically earlier arrival than the departure time of day breaks the whole
scan (`some none`); otherwise improve the stop label when it beats both the
stop's and the target's earliest arrivals.  Outer `none` is a panic. -/
def scan_label_step (stop_times : List RrStopTime) (arrival_stop_index : Nat)
    (departure_time : Int) (stop_i_local_index stop_i_index : Nat) (st : ScanState) :
    Option (Option ScanState) :=
  match st.current_trip_index with
  | none => some (some st)
  | some current_trip_index =>
    match stop_times.get? (current_trip_index + stop_i_local_index) with
    | none => none
    | some entry =>
      match entry.arrival_time with
      | none => none
      | some arrival_time_at_stop_i =>
        if arrival_time_at_stop_i < departure_time then
          -- Case: Stop A (23:54), Stop B (00:04), ... : `break`.
          some none
        else
          let earliest_arrival_time_stop_i :=
            assoc_lookup st.earliest_arrival_times stop_i_index
          let earliest_arrival_time_arrival_stop :=
            assoc_lookup st.earliest_arrival_times arrival_stop_index
          let can_label_be_improved :=
            match earliest_arrival_time_stop_i, earliest_arrival_time_arrival_stop with
            | none, none => true
            | some arrival_time_1, none => decide (arrival_time_at_stop_i < arrival_time_1)
            | none, some arrival_time_2 => decide (arrival_time_at_stop_i < arrival_time_2)
            | some arrival_time_1, some arrival_time_2 =>
              decide (arrival_time_at_stop_i < min arrival_time_1 arrival_time_2)
          if can_label_be_improved then
            some (some { st with
              labels_k := assoc_insert st.labels_k stop_i_index arrival_time_at_stop_i,
              earliest_arrival_times :=
                assoc_insert st.earliest_arrival_times stop_i_index arrival_time_at_stop_i,
              marked_stops := stop_i_index :: st.marked_stops,
              path_k := assoc_insert st.path_k stop_i_index
                (current_trip_index, st.current_trip_boarded_at) })
          else some (some st)

/-- Lines 145-162, the backward walk over earlier trips of the route when a
trip is held.  `i` steps down by `stop_count`; the source's usize
subtractions panic near zero (`none`). -/
def catch_backward (stop_times : List RrStopTime) (route : RrRoute)
    (stop_i_local_index stop_i_index : Nat) (previous_arrival : Int) :
    Nat → Nat → (Option Nat × Nat) → Option (Option Nat × Nat)
  | 0, _, _ => none
  | fuel + 1, i, acc =>
    if i < route.stop_time_first_index then some acc
    else
      match stop_times.get? i with
      | none => none
      | some entry =>
        match entry.departure_time with
        | some departure_time =>
          if departure_time > previous_arrival then
            if i < stop_i_local_index then none
            else if i < route.stop_count then none
            else
              catch_backward stop_times route stop_i_local_index stop_i_index
                previous_arrival fuel (i - route.stop_count)
                (some (i - stop_i_local_index), stop_i_index)
          else some acc
        | none =>
          if i < route.stop_count then none
          else
            catch_backward stop_times route stop_i_local_index stop_i_index
              previous_arrival fuel (i - route.stop_count) acc

/-- Lines 163-180, the forward walk over the route's trips when no trip is
held yet: the first trip departing at or after the previous-round label is
caught. -/
def catch_forward (stop_times : List RrStopTime) (route : RrRoute)
    (stop_i_local_index stop_i_index : Nat) (previous_arrival : Int) :
    Nat → Nat → (Option Nat × Nat) → Option (Option Nat × Nat)
  | 0, _, _ => none
  | fuel + 1, i, acc =>
    if i ≥ route.stop_time_count then some acc
    else
      match stop_times.get? (route.stop_time_first_index + i) with
      | none => none
      | some entry =>
        match entry.departure_time with
        | some departure_time =>
          if departure_time ≥ previous_arrival then
            some (some (route.stop_time_first_index + i - stop_i_local_index), stop_i_index)
          else
            catch_forward stop_times route stop_i_local_index stop_i_index
              previous_arrival fuel (i + route.stop_count) acc
        | none =>
          catch_forward stop_times route stop_i_local_index stop_i_index
            previous_arrival fuel (i + route.stop_count) acc

/-- Lines 127-181: decide whether an earlier trip can be caught at this
position and, if so, run the backward or forward search. -/
def scan_catch_step (stop_times : List RrStopTime) (route : RrRoute)
    (labels_prev : List (Nat × Int)) (stop_i_local_index stop_i_index : Nat)
    (st : ScanState) : Option ScanState :=
  let previous_arrival_time_at_stop_i := assoc_lookup labels_prev stop_i_index
  let can_catch : Option Bool :=
    match previous_arrival_time_at_stop_i, st.current_trip_index with
    | some previous_arrival, some current_trip_index =>
      match stop_times.get? (current_trip_index + stop_i_local_index) with
      | none => none
      | some entry =>
        match entry.departure_time with
        | some departure_time => some (decide (previous_arrival ≤ departure_time))
        | none => some false
    | some _, none => some true
    | _, _ => some false
  match can_catch with
  | none => none
  | some false => some st
  | some true =>
    match previous_arrival_time_at_stop_i with
    | none => none
    | some previous_arrival =>
      match st.current_trip_index with
      | some current_trip_index =>
        if current_trip_index + stop_i_local_index < route.stop_count then none
        else
          match catch_backward stop_times route stop_i_local_index stop_i_index
              previous_arrival (stop_times.length + 1)
              (current_trip_index + stop_i_local_index - route.stop_count)
              (some current_trip_index, st.current_trip_boarded_at) with
          | none => none
          | some (c, b) =>
            some { st with current_trip_index := c, current_trip_boarded_at := b }
      | none =>
        match catch_forward stop_times route stop_i_local_index stop_i_index
            previous_arrival (stop_times.length + 1) stop_i_local_index
            (none, st.current_trip_boarded_at) with
        | none => none
        | some (c, b) =>
          some { st with current_trip_index := c, current_trip_boarded_at := b }

/-- Lines 88-182: the position loop of one route scan, from the boarding
position to the end of the route, with the midnight `break`. -/
def scan_positions (stop_times : List RrStopTime) (route_stops : List Nat) (route : RrRoute)
    (arrival_stop_index : Nat) (departure_time : Int) (labels_prev : List (Nat × Int)) :
    Nat → Nat → ScanState → Option ScanState
  | 0, _, st => some st
  | remaining + 1, stop_i_local_index, st =>
    match route_stops.get? (route.stop_first_index + stop_i_local_index) with
    | none => none
    | some stop_i_index =>
      match scan_label_step stop_times arrival_stop_index departure_time
          stop_i_local_index stop_i_index st with
      | none => none
      | some none => some st
      | some (some st1) =>
        match scan_catch_step stop_times route labels_prev stop_i_local_index
            stop_i_index st1 with
        | none => none
        | some st2 =>
          scan_positions stop_times route_stops route arrival_stop_index departure_time
            labels_prev remaining (stop_i_local_index + 1) st2

/-- One collected (route, boarding position) scan of `plan_journey`'s round
loop, starting with no trip held, empty round-k labels and marks. -/
def scan_route (stop_times : List RrStopTime) (route_stops : List Nat) (route : RrRoute)
    (arrival_stop_index : Nat) (departure_time : Int) (labels_prev : List (Nat × Int))
    (earliest_arrival_times : List (Nat × Int)) (stop_local_index : Nat) :
    Option ScanState :=
  scan_positions stop_times route_stops route arrival_stop_index departure_time labels_prev
    (route.stop_count - stop_local_index) stop_local_index
    { labels_k := [], earliest_arrival_times := earliest_arrival_times,
      marked_stops := [], path_k := [],
      current_trip_index := none, current_trip_boarded_at := 0 }

/-- The two-stop route of the midnight counterexample: one trip departing
stop A at 23:54 (minute 1434) and arriving at stop B at 00:04 (minute 4). -/
def midnight_route : RrRoute :=
  { stop_time_first_index := 0, stop_time_count := 2, stop_first_index := 0, stop_count := 2 }

/-- The stop times of the midnight-crossing trip. -/
def midnight_stop_times : List RrStopTime :=
  [ { arrival_time := none, departure_time := some 1434 },
    { arrival_time := some 4, departure_time := none } ]

/-- Claim C2 (the code violates it): at departure 23:50 (minute 1430) the
scan boards the 23:54 trip at stop 0, but at stop 1 the arrival 00:04
(minute 4) is numerically below the departure time of day, so the scan
`break`s: stop 1 receives no label and no mark, even though the trip validly
reaches it four minutes after midnight.  No date offset is carried anywhere
in the comparison. -/
theorem plan_journey_route_scan_drops_post_midnight :
    scan_route midnight_stop_times [0, 1] midnight_route 1 1430 [(0, 1430)] [] 0 =
      some { labels_k := [], earliest_arrival_times := [], marked_stops := [], path_k := [],
             current_trip_index := some 0, current_trip_boarded_at := 0 } ∧
    ((midnight_stop_times.get? 1).bind (·.arrival_time) = some 4 ∧
      (midnight_stop_times.get? 0).bind (·.departure_time) = some 1434 ∧
      (1430 : Int) ≤ 1434) ∧
    assoc_lookup
      (({ labels_k := [], earliest_arrival_times := [], marked_stops := [], path_k := [],
          current_trip_index := some 0, current_trip_boarded_at := 0 : ScanState }).labels_k)
      1 = none := by
  refine ⟨by decide, ⟨by decide, by decide, by decide⟩, by decide⟩

/-! # One-to-many exploration router (src/routing/core.rs,
src/routing/exploration.rs, src/routing/connections.rs,
src/routing/utils.rs) -/

/-- `RouteSection` (src/routing/models.rs): one leg of an explored route —
a journey leg (`journey_id = some _`) or a foot transfer (`none`). -/
structure RouteSection where
  journey_id : Option Int
  departure_stop_id : Int
  arrival_stop_id : Int
  arrival_at : Int
  duration : Option Int
deriving DecidableEq, Repr

/-- `Route` (src/routing/models.rs): the legs so far plus the visited-stop
set (a hash set, carried as a list). -/
structure Route where
  sections : List RouteSection
  visited_stops : List Int
deriving DecidableEq, Repr

/-- Stand-in for the "a route always contains at least one section"
invariant: `last_section` of an (impossible) section-less route. -/
def default_route_section : RouteSection :=
  { journey_id := none, departure_stop_id := 0, arrival_stop_id := 0,
    arrival_at := 0, duration := none }

def Route.last_section (r : Route) : RouteSection :=
  r.sections.getLast?.getD default_route_section

def Route.arrival_stop_id (r : Route) : Int :=
  r.last_section.arrival_stop_id

def Route.arrival_at (r : Route) : Int :=
  r.last_section.arrival_at

def Route.sections_having_journey (r : Route) : List RouteSection :=
  r.sections.filter (fun s => s.journey_id.isSome)

def Route.count_connections (r : Route) : Nat :=
  r.sections_having_journey.length

/-- `HashSet::insert`: add if absent. -/
def set_insert {α : Type} [DecidableEq α] (s : List α) (x : α) : List α :=
  if s.contains x then s else x :: s

/-- Modelled from the spec: `RouteSection::find_next` and `Route::extend`
are called by src/routing/core.rs, src/routing/exploration.rs and
src/routing/connections.rs but are not defined under src/.  Per the spec
(section 4.C) they build, respectively, the first section of a journey
boarded at a stop on a date (with the stops it visits), and the route
extended by the next section of a journey; both may fail (`none`).  They
are carried as opaque operations. -/
structure RouteOps where
  find_next : DataStorage → Int → Int → Int → Bool → Option (RouteSection × List Int)
  extend : DataStorage → Route → Int → Int → Bool → Option Route

/-- The route priority queue of the explorer (src/routing/utils.rs lines
40-77): a min-heap keyed by `(arrival_at, insertion sequence)` — the binary
heap's `Ord` reverses both components, so `pop` yields the earliest arrival,
ties broken by the earliest insertion. -/
structure RouteQueue where
  items : List (Nat × Route)
  seq : Nat
deriving DecidableEq, Repr

def RouteQueue.push (q : RouteQueue) (route : Route) : RouteQueue :=
  { items := q.items ++ [(q.seq, route)], seq := q.seq + 1 }

def RouteQueue.pop (q : RouteQueue) : Option (Route × RouteQueue) :=
  match q.items with
  | [] => none
  | first :: rest =>
    let best := rest.foldl (fun acc it =>
      if it.2.arrival_at < acc.2.arrival_at ∨
          (it.2.arrival_at = acc.2.arrival_at ∧ it.1 < acc.1) then it else acc) first
    some (best.2, { q with items := q.items.eraseP (fun it => it.1 == best.1) })

/-- `From<Vec<Route>> for RouteQueue` (src/routing/exploration.rs lines
51-65): the sequence numbers are the vector positions. -/
def route_queue_from (routes : List Route) : RouteQueue :=
  { items := routes.enum, seq := routes.length }

/-- Modelled from the spec: `sort_routes` is called at the end of
`explore_routes` but is not under src/; the spec's deterministic ordering is
by ascending arrival time (the queue's priority), realised as an insertion
sort. -/
def insert_by_arrival (x : Route) : List Route → List Route
  | [] => [x]
  | y :: ys => if y.arrival_at ≤ x.arrival_at then y :: insert_by_arrival x ys
      else x :: y :: ys

/-- Modelled from the spec: see `insert_by_arrival`. -/
def sort_routes (routes : List Route) : List Route :=
  routes.foldl (fun acc x => insert_by_arrival x acc) []

/-- `get_operating_journeys` (src/routing/connections.rs lines 157-185): the
journeys operating on the date at the stop, via the bit-field indexes.
`none` models the journey-id resolution panic. -/
def get_operating_journeys (ds : DataStorage) (date stop_id : Int) :
    Option (List Journey) :=
  match ds.bit_fields_by_stop_id stop_id with
  | none => some []
  | some bit_fields_1 =>
    let bit_fields_2 := ds.bit_fields_by_day date
    let bit_fields := bit_fields_1.filter (fun bf => bit_fields_2.contains bf)
    let journey_ids :=
      (bit_fields.map (fun bf => ds.journeys_by_stop_id_and_bit_field_id stop_id bf)).flatten
    journey_ids.mapM (fun jid => ds.journeys jid)

/-- The `get_journeys` closure of `next_departures` (src/routing/connections.rs
lines 44-63): departures of the operating journeys (excluding last stops)
with the running maximum departure instant, seeded at the date's midnight. -/
def next_departures_get_journeys (ds : DataStorage) (date stop_id : Int) :
    Option (List (Journey × Int) × Int) := do
  let ops ← get_operating_journeys ds date stop_id
  let filtered := ops.filter (fun j => !(j.is_last_stop stop_id true))
  let pairs := filtered.map (fun j => (j, j.departure_at_of stop_id date))
  let max_departure_at := pairs.foldl (fun mx p => if p.2 > mx then p.2 else mx) (date * 1440)
  pure (pairs, max_departure_at)

/-- Stable insertion step of the sort by departure instant
(`journeys.sort_by_key`, src/routing/connections.rs line 101). -/
def insert_by_departure (x : Journey × Int) : List (Journey × Int) → List (Journey × Int)
  | [] => [x]
  | y :: ys => if y.2 ≤ x.2 then y :: insert_by_departure x ys else x :: y :: ys

def sort_by_departure (l : List (Journey × Int)) : List (Journey × Int) :=
  l.foldl (fun acc x => insert_by_departure x acc) []

/-- The route-hash deduplication scan of `next_departures`
(src/routing/connections.rs lines 105-119): only the first journey per route
hash (terminus) survives; `none` models the `hash_route(..).unwrap()` panic. -/
def dedup_routes (ds : DataStorage) (departure_stop_id : Int) :
    List (Journey × Int) → List Int → Option (List (Journey × Int))
  | [], _ => some []
  | jd :: rest, routes_to_ignore =>
    match jd.1.hash_route departure_stop_id with
    | none => none
    | some hash =>
      if routes_to_ignore.contains hash then
        dedup_routes ds departure_stop_id rest routes_to_ignore
      else do
        let tail ← dedup_routes ds departure_stop_id rest (hash :: routes_to_ignore)
        pure (jd :: tail)

/-- `Iterator::filter` with a panicking predicate, evaluated left to right. -/
def filter_option {α : Type} (p : α → Option Bool) : List α → Option (List α)
  | [] => some []
  | x :: xs => do
    let b ← p x
    let rest ← filter_option p xs
    if b then pure (x :: rest) else pure rest

/-- `next_departures` (src/routing/connections.rs lines 37-155): collect the
day's (and, late in the day, the next day's) departures from the stop,
window them, sort by departure, deduplicate by route hash, and keep those
boardable after the previous journey (`boarding_allowed`). -/
def next_departures (ds : DataStorage) (departure_stop_id departure_at : Int)
    (routes_to_ignore : Option (List Int)) (previous_journey_id : Option Int) :
    Option (List (Journey × Int)) := do
  let j1 ← next_departures_get_journeys ds (departure_at.ediv 1440) departure_stop_id
  let journeys_1 := j1.1
  let max_departure_at_journeys_1_adjusted := j1.2 + (-240)
  let j2 ←
    if departure_at > max_departure_at_journeys_1_adjusted then do
      -- The journeys of the next day are also loaded; max departure 08:00 next day.
      let departure_date := departure_at.ediv 1440 + 1
      let jn ← next_departures_get_journeys ds departure_date departure_stop_id
      pure (jn.1, departure_date * 1440 + 480)
    else
      pure (([] : List (Journey × Int)),
        if departure_at.emod 1440 < 480 then departure_at.ediv 1440 * 1440 + 480
        else departure_at + 240)
  let journeys_2 := j2.1
  let max_departure_at := j2.2
  let journeys := (journeys_1 ++ journeys_2).filter
    (fun jd => decide (jd.2 ≥ departure_at) && decide (jd.2 ≤ max_departure_at))
  let journeys := sort_by_departure journeys
  let journeys ← dedup_routes ds departure_stop_id journeys (routes_to_ignore.getD [])
  filter_option (fun jd =>
    boarding_allowed ds departure_stop_id departure_at previous_journey_id jd.1 jd.2) journeys

/-- `create_initial_routes` (src/routing/core.rs lines 78-118): one route
per next departure whose first section `find_next` yields, then one walking
route per stop connection of the departure stop. -/
def create_initial_routes (ops : RouteOps) (ds : DataStorage)
    (departure_stop_id departure_at : Int) : Option (List Route) := do
  let deps ← next_departures ds departure_stop_id departure_at none none
  let journey_routes := deps.foldl (fun acc jd =>
    match ops.find_next ds jd.1.id departure_stop_id (jd.2.ediv 1440) true with
    | some sv =>
      acc ++ [{ sections := [sv.1],
                visited_stops := set_insert sv.2 departure_stop_id : Route }]
    | none => acc) []
  match ds.stop_connections_by_stop_id departure_stop_id with
  | some stop_connections =>
    pure (journey_routes ++ stop_connections.map (fun sc =>
      { sections := [{ journey_id := none, departure_stop_id := sc.stop_id_1,
                       arrival_stop_id := sc.stop_id_2,
                       arrival_at := add_minutes_to_date_time departure_at sc.duration,
                       duration := some sc.duration }],
        visited_stops := set_insert (set_insert [] sc.stop_id_1) sc.stop_id_2 }))
  | none => pure journey_routes

/-- `count_stops` via `section.journey(data_storage)` (src/routing/core.rs
lines 229-234); `none` models the `unwrap` panics. -/
def count_stops_of_section (ds : DataStorage) (s : RouteSection) : Option Nat := do
  let jid ← s.journey_id
  let j ← ds.journeys jid
  pure (j.count_stops s.departure_stop_id s.arrival_stop_id)

/-- The per-connection stop-count comparison loop of `is_improving_solution`
(src/routing/core.rs lines 269-277): the first differing pair decides
(more crossed stops is better); all equal means the standing solution wins. -/
def compare_section_stops (ds : DataStorage) :
    List (RouteSection × RouteSection) → Option Bool
  | [] => some false
  | s12 :: rest => do
    let stop_count_1 ← count_stops_of_section ds s12.1
    let stop_count_2 ← count_stops_of_section ds s12.2
    if stop_count_1 ≠ stop_count_2 then pure (decide (stop_count_1 > stop_count_2))
    else compare_section_stops ds rest

/-- `is_improving_solution` (src/routing/core.rs lines 224-281).  A
candidate that is a single walking section is never a valid solution;
otherwise earlier arrival wins, then fewer connections, then the
stop-count comparison. -/
def is_improving_solution (ds : DataStorage) (candidate : Route)
    (solution : Option Route) : Option Bool :=
  if candidate.sections.length = 1 ∧ candidate.last_section.journey_id = none then
    -- If the candidate contains only a walking trip, it is not a valid solution.
    some false
  else
    match solution with
    | none => some true
    | some solution =>
      let t1 := candidate.arrival_at
      let t2 := solution.arrival_at
      if t1 ≠ t2 then some (decide (t1 < t2))
      else
        let connection_count_1 := candidate.count_connections
        let connection_count_2 := solution.count_connections
        if connection_count_1 ≠ connection_count_2 then
          some (decide (connection_count_1 < connection_count_2))
        else
          compare_section_stops ds
            (candidate.sections_having_journey.zip solution.sections_having_journey)

/-- `update_arrival_stop` (src/routing/core.rs lines 188-216): shorten the
last section to an intermediate arrival stop, with the journey's arrival
instant there; `none` models the unwrap/`Err` panics. -/
def update_arrival_stop (ds : DataStorage) (route : Route) (arrival_stop_id : Int) :
    Option Route := do
  let last_section := route.last_section
  let jid ← last_section.journey_id
  let journey ← ds.journeys jid
  let arrival_at ← journey.arrival_at_of_with_origin arrival_stop_id
    (last_section.arrival_at.ediv 1440) last_section.arrival_stop_id
  pure { route with sections := route.sections.dropLast ++
    [{ last_section with arrival_stop_id := arrival_stop_id, arrival_at := arrival_at }] }

/-- The `evaluate_candidate` closure of
`can_continue_exploration_one_to_many` (src/routing/core.rs lines 151-167):
a candidate later than the time limit is dropped; otherwise it replaces the
stop's solution when `is_improving_solution` says so. -/
def evaluate_candidate (ds : DataStorage) (candidate : Route)
    (solutions : List (Int × Route)) (time_limit : Int) :
    Option (List (Int × Route)) :=
  if candidate.arrival_at > time_limit then some solutions
  else do
    let b ← is_improving_solution ds candidate
      (assoc_lookup solutions candidate.arrival_stop_id)
    if b then pure (assoc_insert solutions candidate.arrival_stop_id candidate)
    else pure solutions

/-- `can_continue_exploration_one_to_many` (src/routing/core.rs lines
145-185): evaluate the route itself (walking last leg) or one candidate per
stop of the last journey section, then continue exploring while the route is
strictly below the time limit. -/
def can_continue_exploration_one_to_many (ds : DataStorage) (route : Route)
    (solutions : List (Int × Route)) (time_limit : Int) :
    Option (Bool × List (Int × Route)) := do
  let solutions ←
    if route.last_section.journey_id = none then
      evaluate_candidate ds route solutions time_limit
    else do
      let jid ← route.last_section.journey_id
      let journey ← ds.journeys jid
      (journey.route_section_stops route.last_section.departure_stop_id
          route.last_section.arrival_stop_id).foldlM
        (fun sols stop_id => do
          let candidate ← update_arrival_stop ds route stop_id
          evaluate_candidate ds candidate sols time_limit) solutions
  pure (decide (route.arrival_at < time_limit), solutions)

/-- `get_stop_connections` (src/routing/utils.rs lines 91-105), with the id
resolution fused into the storage map. -/
def get_stop_connections (ds : DataStorage) (stop_id : Int) :
    Option (List StopConnection) :=
  ds.stop_connections_by_stop_id stop_id

/-- `get_routes_to_ignore` (src/routing/utils.rs lines 107-117): the route
hashes, at the route's arrival stop, of every journey section; `none` models
the journey resolution panic. -/
def get_routes_to_ignore (ds : DataStorage) (route : Route) : Option (List Int) :=
  route.sections.foldlM (fun acc s =>
    match s.journey_id with
    | none => pure acc
    | some jid => do
      let j ← ds.journeys jid
      match j.hash_route route.arrival_stop_id with
      | none => pure acc
      | some hash => pure (set_insert acc hash)) []

/-- `get_connections` (src/routing/connections.rs lines 11-35): the next
departures from the route's arrival stop, their own routes excluded, already
explored journeys removed, each extended onto the route. -/
def get_connections (ops : RouteOps) (ds : DataStorage) (route : Route)
    (journeys_to_ignore : List Int) : Option (List Route) := do
  let rti ← get_routes_to_ignore ds route
  let deps ← next_departures ds route.arrival_stop_id route.arrival_at (some rti)
    route.last_section.journey_id
  let deps := deps.filter (fun jd => !(journeys_to_ignore.contains jd.1.id))
  pure (deps.foldl (fun acc jd =>
    match ops.extend ds route jd.1.id (jd.2.ediv 1440) true with
    | some r => acc ++ [r]
    | none => acc) [])

/-- `explore_last_route_section_more_if_possible`
(src/routing/exploration.rs lines 144-159): push the route extended by its
own journey's next section, when there is one. -/
def explore_last_route_section_more_if_possible (ops : RouteOps) (ds : DataStorage)
    (route : Route) (queue : RouteQueue) : RouteQueue :=
  match route.last_section.journey_id with
  | none => queue
  | some journey_id =>
    match ops.extend ds route journey_id (route.arrival_at.ediv 1440) false with
    | some rou => queue.push rou
    | none => queue

/-- `can_explore_connections` (src/routing/exploration.rs lines 161-196):
missing or non-exchange stops stop the route; otherwise the route continues
exactly when it strictly improves the stop's earliest arrival (which it then
records). -/
def can_explore_connections (ds : DataStorage) (route : Route)
    (earliest_arrival_by_stop_id : List (Int × Int)) : Bool × List (Int × Int) :=
  let stop_id := route.arrival_stop_id
  match ds.stops stop_id with
  | none => (false, earliest_arrival_by_stop_id)
  | some stop =>
    if !stop.can_be_used_as_exchange_point then (false, earliest_arrival_by_stop_id)
    else
      let arrival_at := route.arrival_at
      match assoc_lookup earliest_arrival_by_stop_id stop_id with
      | some earliest_arrival =>
        if arrival_at < earliest_arrival then
          (true, assoc_insert earliest_arrival_by_stop_id stop_id arrival_at)
        else (false, earliest_arrival_by_stop_id)
      | none => (true, assoc_insert earliest_arrival_by_stop_id stop_id arrival_at)

/-- `explore_nearby_stops` (src/routing/exploration.rs lines 207-243): after
a journey leg (never after walking), push one walking extension per stop
connection to an existing, unvisited stop. -/
def explore_nearby_stops (ds : DataStorage) (route : Route) (queue : RouteQueue) :
    RouteQueue :=
  match route.last_section.journey_id with
  | none => queue
  | some _ =>
    match get_stop_connections ds route.arrival_stop_id with
    | none => queue
    | some stop_connections =>
      (stop_connections.filter (fun sc =>
          (ds.stops sc.stop_id_2).isSome && !(route.visited_stops.contains sc.stop_id_2))).foldl
        (fun q sc => q.push
          { sections := route.sections ++
              [{ journey_id := none, departure_stop_id := sc.stop_id_1,
                 arrival_stop_id := sc.stop_id_2,
                 arrival_at := add_minutes_to_date_time route.arrival_at sc.duration,
                 duration := some sc.duration }],
            visited_stops := set_insert route.visited_stops sc.stop_id_2 })
        queue

/-- The state threaded through the `while let Some(route) = queue.pop()`
loop of `explore_routes`, with the one-to-many `solutions` map owned by the
`can_continue_exploration` closure. -/
structure ExploreState where
  queue : RouteQueue
  visited_routes : List Route
  new_routes : List Route
  earliest_arrival_by_stop_id : List (Int × Int)
  journeys_to_ignore : List Int
  solutions : List (Int × Route)
deriving DecidableEq, Repr

/-- The body of one `explore_routes` loop iteration after the
`can_continue_exploration` test (src/routing/exploration.rs lines 106-130):
the loop-detection `continue`, the in-journey extension, the
earliest-arrival gate with the repeated-route double-pop, the nearby-stop
walks and the connection exploration.  This part never touches the
solutions map. -/
def explore_rest (ops : RouteOps) (ds : DataStorage) (route : Route)
    (st : ExploreState) : Option ExploreState :=
  if route.last_section.departure_stop_id = route.last_section.arrival_stop_id then
    -- The journey is about to loop.
    some st
  else
    let st := { st with
      queue := explore_last_route_section_more_if_possible ops ds route st.queue }
    match can_explore_connections ds route st.earliest_arrival_by_stop_id with
    | (false, earliest1) =>
      let st := { st with earliest_arrival_by_stop_id := earliest1 }
      if st.visited_routes.contains route then
        let st := { st with visited_routes := st.visited_routes.erase route }
        match st.queue.pop with
        | none => some st
        | some rq2 => some { st with queue := rq2.2 }
      else
        some { st with visited_routes := route :: st.visited_routes }
    | (true, earliest1) =>
      let st := { st with earliest_arrival_by_stop_id := earliest1 }
      let st := { st with queue := explore_nearby_stops ds route st.queue }
      match get_connections ops ds route st.journeys_to_ignore with
      | none => none
      | some conns => some { st with new_routes := st.new_routes ++ conns }

/-- The loop of `explore_routes` (src/routing/exploration.rs lines 96-131),
fuel-bounded, specialised to the one-to-many `can_continue_exploration`;
`none` is a panic (or exhausted fuel). -/
def explore_go (ops : RouteOps) (ds : DataStorage) (time_limit : Int) :
    Nat → ExploreState → Option ExploreState
  | 0, _ => none
  | fuel + 1, st =>
    match st.queue.pop with
    | none => some st
    | some rq =>
      let route := rq.1
      let st := { st with queue := rq.2 }
      match can_continue_exploration_one_to_many ds route st.solutions time_limit with
      | none => none
      | some cs =>
        let st := { st with solutions := cs.2 }
        if !cs.1 then explore_go ops ds time_limit fuel st
        else
          match explore_rest ops ds route st with
          | none => none
          | some st2 => explore_go ops ds time_limit fuel st2

/-- `explore_routes` (src/routing/exploration.rs lines 86-142): run the
queue to exhaustion, then record the new routes' journeys as ignored and
sort the new routes.  Returns (new routes, journeys to ignore, earliest
arrivals, solutions). -/
def explore_routes (ops : RouteOps) (ds : DataStorage) (time_limit : Int) (fuel : Nat)
    (routes : List Route) (journeys_to_ignore : List Int)
    (earliest_arrival_by_stop_id : List (Int × Int)) (solutions : List (Int × Route)) :
    Option (List Route × List Int × List (Int × Int) × List (Int × Route)) := do
  let st ← explore_go ops ds time_limit fuel
    { queue := route_queue_from routes, visited_routes := [], new_routes := [],
      earliest_arrival_by_stop_id := earliest_arrival_by_stop_id,
      journeys_to_ignore := journeys_to_ignore, solutions := solutions }
  let jti := st.new_routes.foldl (fun acc route =>
    match route.last_section.journey_id with
    | some jid => set_insert acc jid
    | none => acc) st.journeys_to_ignore
  pure (sort_routes st.new_routes, jti, st.earliest_arrival_by_stop_id, st.solutions)

/-- The `for i in 0..max_num_explorable_connections` loop of
`compute_routing` (src/routing/core.rs lines 31-70). -/
def compute_routing_loop (ops : RouteOps) (ds : DataStorage) (time_limit : Int)
    (fuel : Nat) :
    Nat → List Route → List Int → List (Int × Int) → List (Int × Route) →
      Option (List (Int × Route))
  | 0, _, _, _, solutions => some solutions
  | i + 1, routes, journeys_to_ignore, earliest, solutions => do
    let r ← explore_routes ops ds time_limit fuel routes journeys_to_ignore earliest solutions
    if r.1.isEmpty then pure r.2.2.2
    else compute_routing_loop ops ds time_limit fuel i r.1 r.2.1 r.2.2.1 r.2.2.2

/-- `compute_routing` (src/routing/core.rs lines 14-76) in mode
`SolveFromDepartureStopToReachableArrivalStops`: initial routes from the
departure stop, their journeys pre-ignored, then up to
`max_num_explorable_connections` exploration levels.  The final
`to_route_result` conversion is modelled from the spec as the identity on
the solution routes (mode B returns the stops' earliest-arrival labels,
which are the solutions' arrival instants); its definition is not under
src/. -/
def compute_routing_one_to_many (ops : RouteOps) (ds : DataStorage)
    (departure_stop_id departure_at : Int) (max_num_explorable_connections : Nat)
    (time_limit : Int) (fuel : Nat) : Option (List (Int × Route)) := do
  let routes ← create_initial_routes ops ds departure_stop_id departure_at
  let journeys_to_ignore := routes.foldl (fun acc r =>
    match r.last_section.journey_id with
    | some jid => set_insert acc jid
    | none => acc) []
  compute_routing_loop ops ds time_limit fuel max_num_explorable_connections routes
    journeys_to_ignore [] []

/-- The invariant of claim C1's amended soundness half: every solution route
arrives no later than the time limit. -/
def solutions_within (time_limit : Int) (solutions : List (Int × Route)) : Prop :=
  ∀ kv ∈ solutions, (kv : Int × Route).2.arrival_at ≤ time_limit

theorem assoc_insert_forall {κ α : Type} [DecidableEq κ] (P : κ × α → Prop)
    (m : List (κ × α)) (k : κ) (v : α) (hm : ∀ kv ∈ m, P kv) (hv : P (k, v)) :
    ∀ kv ∈ assoc_insert m k v, P kv := by
  intro kv hkv
  rw [assoc_insert] at hkv
  rcases List.mem_cons.mp hkv with rfl | h
  · exact hv
  · exact hm kv ((List.eraseP_sublist m).subset h)

theorem evaluate_candidate_within (ds : DataStorage) (candidate : Route)
    (solutions sol' : List (Int × Route)) (time_limit : Int)
    (hinv : solutions_within time_limit solutions)
    (h : evaluate_candidate ds candidate solutions time_limit = some sol') :
    solutions_within time_limit sol' := by
  rw [evaluate_candidate] at h
  by_cases hgt : candidate.arrival_at > time_limit
  · rw [if_pos hgt] at h
    cases h
    exact hinv
  · rw [if_neg hgt] at h
    simp only [bind, Option.bind_eq_some] at h
    obtain ⟨b, hb, h⟩ := h
    cases b with
    | false =>
      simp only [Bool.false_eq_true, if_false, reduceIte, Option.pure_def,
        Option.some.injEq] at h
      subst h
      exact hinv
    | true =>
      simp only [if_true, reduceIte, Option.pure_def, Option.some.injEq] at h
      subst h
      exact assoc_insert_forall _ solutions _ candidate hinv (by simpa using not_lt.mp hgt)

theorem foldlM_option_preserve {α β : Type} (P : β → Prop) (f : β → α → Option β)
    (hf : ∀ b a b', P b → f b a = some b' → P b') :
    ∀ (l : List α) (b b' : β), P b → l.foldlM f b = some b' → P b' := by
  intro l
  induction l with
  | nil =>
    intro b b' hb h
    simp only [List.foldlM_nil, Option.pure_def, Option.some.injEq] at h
    subst h
    exact hb
  | cons a l ih =>
    intro b b' hb h
    simp only [List.foldlM_cons, bind, Option.bind_eq_some] at h
    obtain ⟨b1, hb1, h⟩ := h
    exact ih b1 b' (hf b a b1 hb hb1) h

theorem can_continue_one_to_many_within (ds : DataStorage) (route : Route)
    (solutions : List (Int × Route)) (time_limit : Int) (cont : Bool)
    (sol' : List (Int × Route)) (hinv : solutions_within time_limit solutions)
    (h : can_continue_exploration_one_to_many ds route solutions time_limit =
      some (cont, sol')) :
    solutions_within time_limit sol' := by
  rw [can_continue_exploration_one_to_many] at h
  by_cases hw : route.last_section.journey_id = none
  · rw [if_pos hw] at h
    simp only [bind, Option.bind_eq_some, Option.pure_def, Option.some.injEq,
      Prod.mk.injEq] at h
    obtain ⟨sol1, hsol1, -, rfl⟩ := h
    exact evaluate_candidate_within ds route solutions sol1 time_limit hinv hsol1
  · rw [if_neg hw] at h
    simp only [bind, Option.bind_eq_some, Option.pure_def, Option.some.injEq,
      Prod.mk.injEq] at h
    obtain ⟨jid, hjid, journey, hj, sol1, hfold, -, rfl⟩ := h
    refine foldlM_option_preserve (solutions_within time_limit) _ ?_ _ solutions sol1
      hinv hfold
    intro sols stop_id sols' hsols hstep
    simp only [bind, Option.bind_eq_some] at hstep
    obtain ⟨candidate, hcand, hstep⟩ := hstep
    exact evaluate_candidate_within ds candidate sols sols' time_limit hsols hstep

theorem explore_rest_solutions (ops : RouteOps) (ds : DataStorage) (route : Route)
    (st st2 : ExploreState) (h : explore_rest ops ds route st = some st2) :
    st2.solutions = st.solutions := by
  rw [explore_rest] at h
  split at h
  · cases h
    rfl
  · dsimp only at h
    split at h
    · split at h
      · split at h
        · cases h
          rfl
        · cases h
          rfl
      · cases h
        rfl
    · split at h
      · exact absurd h (by simp)
      · cases h
        rfl

theorem explore_go_within (ops : RouteOps) (ds : DataStorage) (time_limit : Int) :
    ∀ (fuel : Nat) (st st' : ExploreState),
      solutions_within time_limit st.solutions →
      explore_go ops ds time_limit fuel st = some st' →
      solutions_within time_limit st'.solutions := by
  intro fuel
  induction fuel with
  | zero =>
    intro st st' hinv h
    simp [explore_go] at h
  | succ fuel ih =>
    intro st st' hinv h
    rw [explore_go] at h
    split at h
    · cases h
      exact hinv
    · rename_i rq heq
      dsimp only at h
      split at h
      · exact absurd h (by simp)
      · rename_i cs hcs
        have hinv1 : solutions_within time_limit cs.2 :=
          can_continue_one_to_many_within ds rq.1 st.solutions time_limit cs.1 cs.2 hinv
            (by rw [← hcs])
        split at h
        · exact ih _ st' hinv1 h
        · split at h
          · exact absurd h (by simp)
          · rename_i st2 hst2
            have hsol2 : st2.solutions = cs.2 := explore_rest_solutions ops ds rq.1 _ st2 hst2
            exact ih st2 st' (by rw [hsol2]; exact hinv1) h

theorem explore_routes_within (ops : RouteOps) (ds : DataStorage) (time_limit : Int)
    (fuel : Nat) (routes : List Route) (jti : List Int) (earliest : List (Int × Int))
    (solutions : List (Int × Route))
    (r : List Route × List Int × List (Int × Int) × List (Int × Route))
    (hinv : solutions_within time_limit solutions)
    (h : explore_routes ops ds time_limit fuel routes jti earliest solutions = some r) :
    solutions_within time_limit r.2.2.2 := by
  rw [explore_routes] at h
  simp only [bind, Option.bind_eq_some, Option.pure_def, Option.some.injEq] at h
  obtain ⟨st, hst, rfl⟩ := h
  exact explore_go_within ops ds time_limit fuel _ st hinv hst

theorem compute_routing_loop_within (ops : RouteOps) (ds : DataStorage)
    (time_limit : Int) (fuel : Nat) :
    ∀ (n : Nat) (routes : List Route) (jti : List Int) (earliest : List (Int × Int))
      (solutions sol' : List (Int × Route)),
      solutions_within time_limit solutions →
      compute_routing_loop ops ds time_limit fuel n routes jti earliest solutions =
        some sol' →
      solutions_within time_limit sol' := by
  intro n
  induction n with
  | zero =>
    intro routes jti earliest solutions sol' hinv h
    simp only [compute_routing_loop, Option.some.injEq] at h
    subst h
    exact hinv
  | succ n ih =>
    intro routes jti earliest solutions sol' hinv h
    rw [compute_routing_loop] at h
    simp only [bind, Option.bind_eq_some] at h
    obtain ⟨r, hr, h⟩ := h
    have hinv1 := explore_routes_within ops ds time_limit fuel routes jti earliest
      solutions r hinv hr
    split at h
    · simp only [Option.pure_def, Option.some.injEq] at h
      subst h
      exact hinv1
    · exact ih r.1 r.2.1 r.2.2.1 r.2.2.2 sol' hinv1 h

/-- Claim C1 (amended, soundness half): whenever the one-to-many routing
completes, every stop in its result map carries an arrival instant at most
τ_max — the solutions map only ever admits candidates through
`evaluate_candidate`'s `arrival_at ≤ time_limit` gate.  (The converse
inclusion of the original claim fails; see the counterexample.) -/
theorem compute_routing_one_to_many_sound (ops : RouteOps) (ds : DataStorage)
    (departure_stop_id departure_at : Int) (max_num_explorable_connections : Nat)
    (time_limit : Int) (fuel : Nat) (sol : List (Int × Route))
    (h : compute_routing_one_to_many ops ds departure_stop_id departure_at
      max_num_explorable_connections time_limit fuel = some sol) :
    ∀ (stop_id : Int) (route : Route), assoc_lookup sol stop_id = some route →
      route.arrival_at ≤ time_limit := by
  rw [compute_routing_one_to_many] at h
  simp only [bind, Option.bind_eq_some] at h
  obtain ⟨routes, hroutes, h⟩ := h
  have hsol : solutions_within time_limit sol :=
    compute_routing_loop_within ops ds time_limit fuel max_num_explorable_connections
      routes _ [] [] sol (fun kv hkv => absurd hkv (List.not_mem_nil kv)) h
  intro stop_id route hlook
  rw [assoc_lookup] at hlook
  cases hfind : sol.find? (fun kv => kv.1 == stop_id) with
  | none =>
    rw [hfind] at hlook
    simp at hlook
  | some kv =>
    rw [hfind] at hlook
    simp only [Option.map_some', Option.some.injEq] at hlook
    subst hlook
    exact hsol kv (List.mem_of_find?_eq_some hfind)

/-- Route operations for a journey-free timetable: `find_next` and `extend`
are never reached. -/
def trivial_route_ops : RouteOps :=
  { find_next := fun _ _ _ _ _ => none, extend := fun _ _ _ _ _ => none }

/-- A timetable with two exchange-eligible stops joined by a 5-minute foot
transfer and no journeys at all. -/
def walking_storage : DataStorage :=
  { stops := fun s =>
      if s = 1 ∨ s = 2 then
        some { exchange_time := none, can_be_used_as_exchange_point := true }
      else none,
    journeys := fun _ => none,
    stop_connections_by_stop_id := fun s =>
      if s = 1 then some [{ stop_id_1 := 1, stop_id_2 := 2, duration := 5 }]
      else if s = 2 then some [{ stop_id_1 := 2, stop_id_2 := 1, duration := 5 }]
      else none,
    bit_fields_by_stop_id := fun _ => none,
    bit_fields_by_day := fun _ => [],
    journeys_by_stop_id_and_bit_field_id := fun _ _ => [],
    exchange_times_journey_map := fun _ _ _ => none,
    exchange_times_administration_map := fun _ _ _ => none,
    default_exchange_time := (2, 5),
    through_service_bit_field := fun _ _ _ => none,
    timetable_end_date := 400 }

/-- The walking route from stop 1 to stop 2 that `create_initial_routes`
builds on `walking_storage` at departure minute 600. -/
def walk_route : Route :=
  { sections := [{ journey_id := none, departure_stop_id := 1, arrival_stop_id := 2,
                   arrival_at := 605, duration := some 5 }],
    visited_stops := [2, 1] }

/-- Counterexample to claim C1 as stated: on `walking_storage`, departing
stop 1 at minute 600 with τ_max = 660, stop 2 is reachable with arrival 605
≤ 660 (the initial walking route built by `create_initial_routes` reaches
it), yet the one-to-many result map is empty — `is_improving_solution`
rejects candidates that are a single walking section, so the "every stop
reachable with arrival ≤ τ_max appears" half of the claim is false. -/
theorem compute_routing_one_to_many_counterexample :
    compute_routing_one_to_many trivial_route_ops walking_storage 1 600 5 660 20 =
      some [] ∧
    (create_initial_routes trivial_route_ops walking_storage 1 600 = some [walk_route] ∧
      walk_route.arrival_stop_id = 2 ∧ walk_route.arrival_at ≤ 660) ∧
    assoc_lookup ([] : List (Int × Route)) (2 : Int) = none := by
  refine ⟨rfl, ⟨rfl, rfl, by decide⟩, rfl⟩

/-- A direct journey (id 10) from stop 1 (departing minute 610) to stop 2
(arriving minute 630), operating on day 0 via bit field 5. -/
def journey_direct : Journey :=
  { id := 10, legacy_id := 300, administration := "SBB", designation := "IC",
    is_last_stop := fun s _ => decide (s = 2),
    departure_at_of := fun s _ => if s = 1 then 610 else 0,
    hash_route := fun s => if s = 1 then some 42 else if s = 2 then some 43 else none,
    route_section_stops := fun dep arr => if dep = 1 ∧ arr = 2 then [2] else [],
    arrival_at_of_with_origin := fun stop _ _ => if stop = 2 then some 630 else none,
    count_stops := fun _ _ => 2 }

/-- The single section of `journey_direct` boarded at stop 1. -/
def journey_section : RouteSection :=
  { journey_id := some 10, departure_stop_id := 1, arrival_stop_id := 2,
    arrival_at := 630, duration := none }

/-- The route taking `journey_direct` end to end. -/
def journey_route : Route :=
  { sections := [journey_section], visited_stops := [1, 2] }

/-- Route operations for the one-journey timetable: boarding journey 10 at
stop 1 yields its only section; no journey extends further. -/
def journey_route_ops : RouteOps :=
  { find_next := fun _ jid stop _ _ =>
      if jid = 10 ∧ stop = 1 then some (journey_section, [1, 2]) else none,
    extend := fun _ _ _ _ _ => none }

/-- A timetable with stops 1 and 2 and the single journey `journey_direct`
departing stop 1 on day 0. -/
def journey_storage : DataStorage :=
  { stops := fun s =>
      if s = 1 ∨ s = 2 then
        some { exchange_time := none, can_be_used_as_exchange_point := true }
      else none,
    journeys := fun j => if j = 10 then some journey_direct else none,
    stop_connections_by_stop_id := fun _ => none,
    bit_fields_by_stop_id := fun s => if s = 1 then some [5] else none,
    bit_fields_by_day := fun d => if d = 0 then [5] else [],
    journeys_by_stop_id_and_bit_field_id := fun s bf =>
      if s = 1 ∧ bf = 5 then [10] else [],
    exchange_times_journey_map := fun _ _ _ => none,
    exchange_times_administration_map := fun _ _ _ => none,
    default_exchange_time := (2, 5),
    through_service_bit_field := fun _ _ _ => none,
    timetable_end_date := 400 }

/-- Witness for `compute_routing_one_to_many_sound`: on `journey_storage`
the one-to-many run from stop 1 at minute 600 with τ_max = 660 produces the
solution map `[(2, journey_route)]`, and the theorem bounds that route's
arrival by τ_max. -/
theorem compute_routing_one_to_many_sound_witness :
    journey_route.arrival_at ≤ 660 :=
  compute_routing_one_to_many_sound journey_route_ops journey_storage 1 600 5 660 20
    [(2, journey_route)] rfl 2 journey_route rfl
